import Mathlib

/-
Verification development for the PanWatch Signal Aggregation & Technical
Indicator Engine.

The definitions below are a shallow embedding of the Python source:
  * `src/collectors/kline_collector.py` — the technical-indicator engine
    (`_calculate_ma`, `_ema`, `_calculate_macd`, `_calculate_rsi`,
    `_calculate_kdj`, `_calculate_boll`, `_detect_kline_pattern`,
    `_find_cross_days`, `KlineCollector.get_technical_indicators`,
    `KlineCollector.get_kline_summary`);
  * `src/core/signals/signal_pack.py` — the `SignalPackBuilder`.

Python floats are embedded as exact rationals (`ℚ`); the single square root
in the Bollinger computation (`variance ** 0.5`) is embedded as `Real.sqrt`
over `ℝ`.  Python `None`-able values become `Option`, raised exceptions
become `Except`, and Python dict truthiness is translated explicitly at each
use site (a float is truthy iff nonzero, a string iff nonempty, a dict iff
nonempty).
-/

set_option maxHeartbeats 1000000
set_option maxRecDepth 2000

namespace PanWatch

/-- One daily bar (class `KlineData` in `kline_collector.py`):
`date, open, close, high, low, volume`. -/
structure KlineData where
  date : String
  «open» : ℚ
  close : ℚ
  high : ℚ
  low : ℚ
  volume : ℚ
deriving DecidableEq, Repr, Inhabited

/-- Python `max(seq)` over a nonempty list (junk value 0 on `[]`,
which the source never hits because every call site guards emptiness). -/
def listMax : List ℚ → ℚ
  | [] => 0
  | x :: xs => xs.foldl max x

/-- Python `min(seq)` over a nonempty list (junk value 0 on `[]`). -/
def listMin : List ℚ → ℚ
  | [] => 0
  | x :: xs => xs.foldl min x

/-- `_calculate_ma(closes, period)`: simple mean of the last `period`
closes, `None` when fewer than `period` values exist. -/
def _calculate_ma (closes : List ℚ) (period : ℕ) : Option ℚ :=
  if closes.length < period then none
  else some ((closes.drop (closes.length - period)).sum / period)

/-- Scan step for `_ema`: each new value is
`(price - prev) * multiplier + prev`. -/
def emaScan (m : ℚ) (prev : ℚ) : List ℚ → List ℚ
  | [] => []
  | p :: rest =>
    let r := (p - prev) * m + prev
    r :: emaScan m r rest

/-- `_ema(data, period)`: seed with the first value, then smooth with
multiplier `2 / (period + 1)`. -/
def _ema (data : List ℚ) (period : ℕ) : List ℚ :=
  match data with
  | [] => []
  | x :: xs => x :: emaScan (2 / ((period : ℚ) + 1)) x xs

/-- `_calculate_macd(closes, fast=12, slow=26, signal=9)`: `None` when
fewer than `slow + signal` bars; otherwise the full DIF/DEA/Hist series. -/
def _calculate_macd (closes : List ℚ) (fast slow signal : ℕ) :
    Option (List ℚ × List ℚ × List ℚ) :=
  if closes.length < slow + signal then none
  else
    let ema_fast := _ema closes fast
    let ema_slow := _ema closes slow
    let dif := (ema_fast.zip ema_slow).map (fun p => p.1 - p.2)
    let dea := _ema dif signal
    let macd_hist := (dif.zip dea).map (fun p => (p.1 - p.2) * 2)
    some (dif, dea, macd_hist)

/-- The `gains` list of `_calculate_rsi`: one entry per adjacent pair of
closes, the positive change or 0. -/
def rsiGains (closes : List ℚ) : List ℚ :=
  (closes.zip closes.tail).map (fun p => if p.2 - p.1 > 0 then p.2 - p.1 else 0)

/-- The `losses` list of `_calculate_rsi`: one entry per adjacent pair of
closes, `abs(change)` when the change is not positive, else 0. -/
def rsiLosses (closes : List ℚ) : List ℚ :=
  (closes.zip closes.tail).map (fun p => if p.2 - p.1 > 0 then 0 else |p.2 - p.1|)

/-- `_calculate_rsi(closes, period)`: `None` when fewer than `period + 1`
bars; otherwise average the last `period` gains/losses (simple mean) and
return `100` when the average loss is 0, else `100 - 100 / (1 + rs)`. -/
def _calculate_rsi (closes : List ℚ) (period : ℕ) : Option ℚ :=
  if closes.length < period + 1 then none
  else
    let gains := rsiGains closes
    let losses := rsiLosses closes
    let avg_gain := (gains.drop (gains.length - period)).sum / (period : ℚ)
    let avg_loss := (losses.drop (losses.length - period)).sum / (period : ℚ)
    if avg_loss = 0 then some 100
    else some (100 - 100 / (1 + avg_gain / avg_loss))

/-- The RSI formula exactly as the spec words it, for the refinement
conjunct of C5: daily deltas of adjacent closes, gain = positive part,
loss = positive part of the negated delta, simple mean over the trailing
`period` values, RSI = 100 when the average loss is exactly 0. -/
def rsiSpec (closes : List ℚ) (period : ℕ) : Option ℚ :=
  if closes.length < period + 1 then none
  else
    let deltas := (closes.zip closes.tail).map (fun p => p.2 - p.1)
    let gains := deltas.map (fun d => max d 0)
    let losses := deltas.map (fun d => max (-d) 0)
    let avg_gain := (gains.drop (gains.length - period)).sum / (period : ℚ)
    let avg_loss := (losses.drop (losses.length - period)).sum / (period : ℚ)
    if avg_loss = 0 then some 100
    else some (100 - 100 / (1 + avg_gain / avg_loss))

/-- The RSV of `_calculate_kdj` at absolute index `i` (for `i ≥ n - 1`):
stochastic position of `klines[i].close` inside the trailing-`n`
high/low window `klines[i-n+1 : i+1]`, or 50 when the window is flat. -/
def kdjRsvAt (klines : List KlineData) (n i : ℕ) : ℚ :=
  let period_klines := (klines.drop (i + 1 - n)).take n
  let highest := listMax (period_klines.map KlineData.high)
  let lowest := listMin (period_klines.map KlineData.low)
  let close := (klines.getD i default).close
  if highest = lowest then 50
  else (close - lowest) / (highest - lowest) * 100

/-- The list of RSVs of `_calculate_kdj`, one per loop index
`i ∈ range(n - 1, len(klines))`. -/
def kdjRsvList (klines : List KlineData) (n : ℕ) : List ℚ :=
  (List.range (klines.length + 1 - n)).map (fun t => kdjRsvAt klines n (t + (n - 1)))

/-- Smoothing recursion of `_calculate_kdj` after the seed:
`k = (2/3)·k₋₁ + (1/3)·rsv`, `d = (2/3)·d₋₁ + (1/3)·k`, `j = 3k - 2d`. -/
def kdjScan (prev : ℚ × ℚ) : List ℚ → List (ℚ × ℚ × ℚ)
  | [] => []
  | rsv :: rest =>
    let k := (2 / 3) * prev.1 + (1 / 3) * rsv
    let d := (2 / 3) * prev.2 + (1 / 3) * k
    (k, d, 3 * k - 2 * d) :: kdjScan (k, d) rest

/-- The full (k, d, j) sequence of `_calculate_kdj`: the first computable
point is seeded `k = d = 50` (its RSV is ignored), later points smoothed. -/
def kdjSeq (rsvs : List ℚ) : List (ℚ × ℚ × ℚ) :=
  match rsvs with
  | [] => []
  | _ :: rest => (50, 50, 3 * 50 - 2 * 50) :: kdjScan (50, 50) rest

/-- `_calculate_kdj(klines, n=9, m1=3, m2=3)`: `None` when fewer than `n`
bars, else the three full series (the source hardcodes the 2/3 and 1/3
smoothing weights, so `m1`/`m2` are accepted but unused, as in the code). -/
def _calculate_kdj (klines : List KlineData) (n _m1 _m2 : ℕ) :
    Option (List ℚ × List ℚ × List ℚ) :=
  if klines.length < n then none
  else
    let triples := kdjSeq (kdjRsvList klines n)
    some (triples.map (fun t => t.1),
          triples.map (fun t => t.2.1),
          triples.map (fun t => t.2.2))

open Classical in
/-- `_calculate_boll(closes, period=20, num_std=2)`: `None` when fewer than
`period` closes, else `(upper, mid, lower, width)` where `mid` is the simple
mean of the trailing `period` closes, the standard deviation is the square
root of the population variance, and
`width = (upper - lower) / mid * 100` when `mid > 0`, else 0. -/
noncomputable def _calculate_boll (closes : List ℝ) (period num_std : ℕ) :
    Option (ℝ × ℝ × ℝ × ℝ) :=
  if closes.length < period then none
  else
    let recent := closes.drop (closes.length - period)
    let mid := recent.sum / (period : ℝ)
    let variance := (recent.map (fun x => (x - mid) ^ 2)).sum / (period : ℝ)
    let std := Real.sqrt variance
    let upper := mid + (num_std : ℝ) * std
    let lower := mid - (num_std : ℝ) * std
    let width := if mid > 0 then (upper - lower) / mid * 100 else 0
    some (upper, mid, lower, width)

/-- Body of `_detect_kline_pattern` applied to the last two bars
(`prev = klines[-2]`, `curr = klines[-1]`); the Python `if`/`elif`
fallthrough is flattened into an equivalent chain of guarded alternatives. -/
def patternOf (prev curr : KlineData) : Option String :=
  let body := |curr.close - curr.«open»|
  let upper_shadow := curr.high - max curr.close curr.«open»
  let lower_shadow := min curr.close curr.«open» - curr.low
  let total_range := curr.high - curr.low
  if total_range = 0 then none
  else
    let body_ratio := body / total_range
    if body_ratio < 1/10 ∧ upper_shadow > body * 2 ∧ lower_shadow > body * 2 then
      some "十字星"
    else if body_ratio < 1/10 ∧ upper_shadow > body * 3 then
      some "倒T字"
    else if body_ratio < 1/10 ∧ lower_shadow > body * 3 then
      some "T字线"
    else if lower_shadow > body * 2 ∧ upper_shadow < body * (1/2) then
      (if curr.close > curr.«open» then some "锤子线(阳)" else some "锤子线(阴)")
    else if upper_shadow > body * 2 ∧ lower_shadow < body * (1/2) then
      (if curr.close > curr.«open» then some "倒锤子(阳)" else some "射击之星")
    else
      let prev_body := |prev.close - prev.«open»|
      if body > prev_body * (3/2) ∧ prev.close < prev.«open» ∧ curr.close > curr.«open» ∧
          curr.close > prev.«open» ∧ curr.«open» < prev.close then
        some "看涨吞没"
      else if body > prev_body * (3/2) ∧ prev.close > prev.«open» ∧ curr.close < curr.«open» ∧
          curr.«open» > prev.close ∧ curr.close < prev.«open» then
        some "看跌吞没"
      else
        let change_pct := if curr.«open» > 0 then (curr.close - curr.«open») / curr.«open» * 100 else 0
        if body_ratio > 7/10 ∧ change_pct > 3 then some "大阳线"
        else if body_ratio > 7/10 ∧ change_pct < -3 then some "大阴线"
        else none

/-- `_detect_kline_pattern(klines)`: `None` with fewer than two bars, else
classify from `curr = klines[-1]` and `prev = klines[-2]` only. -/
def _detect_kline_pattern (klines : List KlineData) : Option String :=
  match klines.reverse with
  | curr :: prev :: _ => patternOf prev curr
  | _ => none

/-- `_find_cross_days(series1, series2, cross_type)`: scan `i` from
`len - 2` down to 0 and return `len - 1 - i` for the first crossover of the
requested direction; equivalently the smallest `d ≥ 1` whose index
`i = len - 1 - d` crosses.  `None` when either series is shorter than 2 or
no crossover exists.  (All call sites pass two series of equal length.) -/
def _find_cross_days (series1 series2 : List ℚ) (cross_type : String) : Option ℕ :=
  if series1.length < 2 ∨ series2.length < 2 then none
  else
    ((List.range (series1.length - 1)).map (fun d => d + 1)).find? (fun d =>
      let i := series1.length - 1 - d
      if cross_type = "金叉" then
        decide (series1.getD i 0 ≤ series2.getD i 0 ∧
                series1.getD (i + 1) 0 > series2.getD (i + 1) 0)
      else
        decide (series1.getD i 0 ≥ series2.getD i 0 ∧
                series1.getD (i + 1) 0 < series2.getD (i + 1) 0))

/-- The `TechnicalIndicators` dataclass: every indicator field is optional
(absent when history is insufficient).  The Bollinger fields live in `ℝ`
because their computation takes a square root; everything else is exact. -/
structure TechnicalIndicators where
  (ma5 ma10 ma20 ma60 : Option ℚ)
  (macd_dif macd_dea macd_hist : Option ℚ)
  (macd_cross : Option String)
  (macd_cross_days : Option ℕ)
  (rsi6 rsi12 rsi24 : Option ℚ)
  (kdj_k kdj_d kdj_j : Option ℚ)
  (kdj_cross : Option String)
  (boll_upper boll_mid boll_lower boll_width : Option ℝ)
  (volume_ratio volume_ma5 volume_ma10 : Option ℚ)
  (volume_trend : Option String)
  (change_5d change_20d : Option ℚ)
  (amplitude amplitude_avg5 : Option ℚ)
  (support_s support_m support_l : Option ℚ)
  (resistance_s resistance_m resistance_l : Option ℚ)
  (support resistance : Option ℚ)
  (kline_pattern : Option String)

/-- `TechnicalIndicators()` with every field left at its `None` default —
what `get_technical_indicators` returns when no bars are available. -/
def emptyIndicators : TechnicalIndicators :=
  { ma5 := none, ma10 := none, ma20 := none, ma60 := none
    macd_dif := none, macd_dea := none, macd_hist := none
    macd_cross := none, macd_cross_days := none
    rsi6 := none, rsi12 := none, rsi24 := none
    kdj_k := none, kdj_d := none, kdj_j := none, kdj_cross := none
    boll_upper := none, boll_mid := none, boll_lower := none, boll_width := none
    volume_ratio := none, volume_ma5 := none, volume_ma10 := none
    volume_trend := none
    change_5d := none, change_20d := none
    amplitude := none, amplitude_avg5 := none
    support_s := none, support_m := none, support_l := none
    resistance_s := none, resistance_m := none, resistance_l := none
    support := none, resistance := none
    kline_pattern := none }

/-- The volume-analysis block of `get_technical_indicators`: returns
`(volume_ratio, volume_trend)`.  The Python guard
`if volumes and volume_ma5 and volume_ma5 > 0` requires a nonempty volume
list and a present, truthy (nonzero), positive 5-bar volume MA. -/
def volume_fields (volumes : List ℚ) : Option ℚ × Option String :=
  match (if volumes = [] then none else _calculate_ma volumes 5) with
  | some v =>
    if volumes ≠ [] ∧ v ≠ 0 ∧ v > 0 then
      let ratio := volumes.getLastD 0 / v
      (some ratio,
       some (if ratio > 3/2 then "放量" else if ratio < 7/10 then "缩量" else "平量"))
    else (none, none)
  | none => (none, none)

open Classical in
/-- `KlineCollector.get_technical_indicators`, with the network fetch
abstracted away: the function of the fetched bar series.  Returns the
all-`None` snapshot when the series is empty, exactly as the source. -/
noncomputable def get_technical_indicators_pure (klines : List KlineData) :
    TechnicalIndicators :=
  if klines = [] then emptyIndicators
  else
    let closes := klines.map KlineData.close
    let volumes := klines.map KlineData.volume
    let ma5 := _calculate_ma closes 5
    let ma10 := _calculate_ma closes 10
    let ma20 := _calculate_ma closes 20
    let ma60 := _calculate_ma closes 60
    let macdFields : Option ℚ × Option ℚ × Option ℚ × Option String × Option ℕ :=
      match _calculate_macd closes 12 26 9 with
      | none => (none, none, none, none, none)
      | some (dif_list, dea_list, hist_list) =>
        let macd_dif := dif_list.getLastD 0
        let macd_dea := dea_list.getLastD 0
        let macd_hist := hist_list.getLastD 0
        if macd_dif > macd_dea then
          (some macd_dif, some macd_dea, some macd_hist, some "金叉",
           _find_cross_days dif_list dea_list "金叉")
        else
          (some macd_dif, some macd_dea, some macd_hist, some "死叉",
           _find_cross_days dif_list dea_list "死叉")
    let rsi6 := _calculate_rsi closes 6
    let rsi12 := _calculate_rsi closes 12
    let rsi24 := _calculate_rsi closes 24
    let kdjFields : Option ℚ × Option ℚ × Option ℚ × Option String :=
      match _calculate_kdj klines 9 3 3 with
      | none => (none, none, none, none)
      | some (k_list, d_list, j_list) =>
        let kdj_k := k_list.getLastD 0
        let kdj_d := d_list.getLastD 0
        let kdj_j := j_list.getLastD 0
        (some kdj_k, some kdj_d, some kdj_j,
         some (if kdj_k > kdj_d then "金叉" else "死叉"))
    let bollFields : Option ℝ × Option ℝ × Option ℝ × Option ℝ :=
      match _calculate_boll (closes.map (fun q => (q : ℝ))) 20 2 with
      | none => (none, none, none, none)
      | some (u, m, l, w) => (some u, some m, some l, some w)
    let volume_ma5 := if volumes = [] then none else _calculate_ma volumes 5
    let volume_ma10 := if volumes = [] then none else _calculate_ma volumes 10
    let volFields := volume_fields volumes
    let change_5d :=
      if closes.length ≥ 6 then
        some ((closes.getLastD 0 - closes.getD (closes.length - 6) 0) /
              closes.getD (closes.length - 6) 0 * 100)
      else none
    let change_20d :=
      if closes.length ≥ 21 then
        some ((closes.getLastD 0 - closes.getD (closes.length - 21) 0) /
              closes.getD (closes.length - 21) 0 * 100)
      else none
    let curr := klines.getLastD default
    let amplitude :=
      if curr.low > 0 then some ((curr.high - curr.low) / curr.low * 100) else none
    let amplitude_avg5 :=
      if klines.length ≥ 5 then
        let amps := ((klines.drop (klines.length - 5)).filter
            (fun k => decide (k.low > 0))).map (fun k => (k.high - k.low) / k.low * 100)
        if amps = [] then none else some (amps.sum / (amps.length : ℚ))
      else none
    let support_s :=
      if klines.length ≥ 5 then
        some (listMin ((klines.drop (klines.length - 5)).map KlineData.low))
      else none
    let resistance_s :=
      if klines.length ≥ 5 then
        some (listMax ((klines.drop (klines.length - 5)).map KlineData.high))
      else none
    let support_m :=
      if klines.length ≥ 20 then
        some (listMin ((klines.drop (klines.length - 20)).map KlineData.low))
      else none
    let resistance_m :=
      if klines.length ≥ 20 then
        some (listMax ((klines.drop (klines.length - 20)).map KlineData.high))
      else none
    let support_l :=
      if klines.length ≥ 60 then
        some (listMin ((klines.drop (klines.length - 60)).map KlineData.low))
      else none
    let resistance_l :=
      if klines.length ≥ 60 then
        some (listMax ((klines.drop (klines.length - 60)).map KlineData.high))
      else none
    { ma5 := ma5, ma10 := ma10, ma20 := ma20, ma60 := ma60
      macd_dif := macdFields.1, macd_dea := macdFields.2.1
      macd_hist := macdFields.2.2.1
      macd_cross := macdFields.2.2.2.1, macd_cross_days := macdFields.2.2.2.2
      rsi6 := rsi6, rsi12 := rsi12, rsi24 := rsi24
      kdj_k := kdjFields.1, kdj_d := kdjFields.2.1, kdj_j := kdjFields.2.2.1
      kdj_cross := kdjFields.2.2.2
      boll_upper := bollFields.1, boll_mid := bollFields.2.1
      boll_lower := bollFields.2.2.1, boll_width := bollFields.2.2.2
      volume_ratio := volFields.1
      volume_ma5 := volume_ma5, volume_ma10 := volume_ma10
      volume_trend := volFields.2
      change_5d := change_5d, change_20d := change_20d
      amplitude := amplitude, amplitude_avg5 := amplitude_avg5
      support_s := support_s, support_m := support_m, support_l := support_l
      resistance_s := resistance_s, resistance_m := resistance_m
      resistance_l := resistance_l
      support := support_m, resistance := resistance_m
      kline_pattern := _detect_kline_pattern klines }

/-- Trend label of `get_kline_summary` from the MA ordering; the Python
truthiness test `if ma5 and ma10 and ma20` requires presence and
nonzeroness, falling back to "数据不足". -/
def summary_trend (ind : TechnicalIndicators) : String :=
  match ind.ma5, ind.ma10, ind.ma20 with
  | some a, some b, some c =>
    if a ≠ 0 ∧ b ≠ 0 ∧ c ≠ 0 then
      if a > b ∧ b > c then "多头排列"
      else if a < b ∧ b < c then "空头排列"
      else "均线交织"
    else "数据不足"
  | _, _, _ => "数据不足"

/-- MACD status string of `get_kline_summary` ("无数据" when no cross was
computed; the day count is appended only when truthy, i.e. nonzero). -/
def summary_macd_status (ind : TechnicalIndicators) : String :=
  match ind.macd_cross with
  | none => "无数据"
  | some c =>
    let days_str :=
      match ind.macd_cross_days with
      | some d => if d ≠ 0 then "(" ++ toString d ++ "日)" else ""
      | none => ""
    c ++ days_str

/-- RSI status thresholds of `get_kline_summary`. -/
def summary_rsi_status (ind : TechnicalIndicators) : Option String :=
  match ind.rsi6 with
  | none => none
  | some r =>
    if r > 80 then some "超买"
    else if r > 70 then some "偏强"
    else if r < 20 then some "超卖"
    else if r < 30 then some "偏弱"
    else some "中性"

/-- How a Python f-string renders an optional string. -/
def optStr : Option String → String
  | some s => s
  | none => "None"

/-- KDJ status of `get_kline_summary`: overbought above J = 100, oversold
below 0, otherwise just the cross label. -/
def summary_kdj_status (ind : TechnicalIndicators) : Option String :=
  match ind.kdj_k, ind.kdj_d with
  | some _, some _ =>
    (match ind.kdj_j with
     | some j =>
       if j > 100 then some (optStr ind.kdj_cross ++ "/超买")
       else if j < 0 then some (optStr ind.kdj_cross ++ "/超卖")
       else ind.kdj_cross
     | none => ind.kdj_cross)
  | _, _ => none

open Classical in
/-- Bollinger status of `get_kline_summary` (Python truthiness: the close
and both bands must be non-`None` and nonzero; the bandwidth branch fires
only for a truthy width). -/
noncomputable def summary_boll_status (last_close : Option ℚ)
    (ind : TechnicalIndicators) : Option String :=
  match last_close, ind.boll_upper, ind.boll_lower with
  | some lc, some bu, some bl =>
    if lc ≠ 0 ∧ bu ≠ 0 ∧ bl ≠ 0 then
      if (lc : ℝ) > bu then some "突破上轨"
      else if (lc : ℝ) < bl then some "跌破下轨"
      else
        match ind.boll_width with
        | some w =>
          if w ≠ 0 then
            (if w < 5 then some "收口窄幅"
             else if w > 15 then some "开口放大"
             else some "正常波动")
          else none
        | none => none
    else none
  | _, _, _ => none

/-- `recent_5_up` of `get_kline_summary`: how many of the last (at most 5)
bars closed above the previous bar's close. -/
def summary_recent_5_up (klines : List KlineData) : ℕ :=
  let recent_5 := if klines.length ≥ 5 then klines.drop (klines.length - 5) else klines
  (recent_5.zip recent_5.tail).countP (fun p => decide (p.2.close > p.1.close))

/-- The summary dict assembled by `get_kline_summary` (static `params` and
timestamp metadata omitted; every computed field is present). -/
structure KlineSummary where
  (last_close : Option ℚ)
  (recent_5_up : ℕ)
  (trend : String)
  (macd_status : String)
  (macd_cross : Option String)
  (macd_cross_days : Option ℕ)
  (macd_hist : Option ℚ)
  (rsi6 : Option ℚ)
  (rsi_status : Option String)
  (kdj_k kdj_d kdj_j : Option ℚ)
  (kdj_status : Option String)
  (boll_upper boll_mid boll_lower boll_width : Option ℝ)
  (boll_status : Option String)
  (volume_ratio : Option ℚ)
  (volume_trend : Option String)
  (ma5 ma10 ma20 ma60 : Option ℚ)
  (change_5d change_20d : Option ℚ)
  (amplitude amplitude_avg5 : Option ℚ)
  (support_s support_m support_l : Option ℚ)
  (resistance_s resistance_m resistance_l : Option ℚ)
  (support resistance : Option ℚ)
  (kline_pattern : Option String)
deriving Inhabited

/-- `KlineCollector.get_kline_summary` as a function of the symbol's daily
bar series (the method fetches the same symbol's history twice, with 30-day
and 120-day windows; every summary field depends only on the series itself
and its trailing bars, so a single series parameter is exact).  `none`
stands for the `{"error": "无K线数据"}` dict returned on an empty series. -/
noncomputable def get_kline_summary_pure (klines : List KlineData) :
    Option KlineSummary :=
  if klines = [] then none
  else
    let indicators := get_technical_indicators_pure klines
    let last_close := (klines.getLastD default).close
    some {
      last_close := some last_close
      recent_5_up := summary_recent_5_up klines
      trend := summary_trend indicators
      macd_status := summary_macd_status indicators
      macd_cross := indicators.macd_cross
      macd_cross_days := indicators.macd_cross_days
      macd_hist := indicators.macd_hist
      rsi6 := indicators.rsi6
      rsi_status := summary_rsi_status indicators
      kdj_k := indicators.kdj_k
      kdj_d := indicators.kdj_d
      kdj_j := indicators.kdj_j
      kdj_status := summary_kdj_status indicators
      boll_upper := indicators.boll_upper
      boll_mid := indicators.boll_mid
      boll_lower := indicators.boll_lower
      boll_width := indicators.boll_width
      boll_status := summary_boll_status (some last_close) indicators
      volume_ratio := indicators.volume_ratio
      volume_trend := indicators.volume_trend
      ma5 := indicators.ma5
      ma10 := indicators.ma10
      ma20 := indicators.ma20
      ma60 := indicators.ma60
      change_5d := indicators.change_5d
      change_20d := indicators.change_20d
      amplitude := indicators.amplitude
      amplitude_avg5 := indicators.amplitude_avg5
      support_s := indicators.support_s
      support_m := indicators.support_m
      support_l := indicators.support_l
      resistance_s := indicators.resistance_s
      resistance_m := indicators.resistance_m
      resistance_l := indicators.resistance_l
      support := indicators.support
      resistance := indicators.resistance
      kline_pattern := indicators.kline_pattern }

/-! ## Signal pack builder (`src/core/signals/signal_pack.py`)

`build_for_symbols` is embedded as a pure function.  Network fetches are
oracle parameters (`klineFetch`, `flowFetch`): `Except.error` models a
raised exception caught by the builder's `try`/`except`, `Except.ok` a
successful provider response.  The quote, news, events and position
sections are independent fan-outs whose outcomes the technical and
capital-flow sections never read; they are abstracted to their observable
results (`quoteMap`, `quoteSrc`, `newsNonempty`, `eventsNonempty`,
`eventsSource`), which is all that `missing`/`sources` assembly consumes.
The builder's per-instance caches are association lists with dict
semantics (later `aset` wins on lookup; `asetdefault` inserts only when
the key is absent, like `dict.setdefault`). -/

/-- `MarketCode` (CN / HK / US). -/
inductive MarketCode where
  | CN
  | HK
  | US
deriving DecidableEq, Repr

/-- Decidable equality for `Except`, for concrete evaluation of builder
results. -/
instance {ε α : Type} [DecidableEq ε] [DecidableEq α] : DecidableEq (Except ε α) :=
  fun x y =>
    match x, y with
    | .ok a, .ok b => decidable_of_iff (a = b) (by simp)
    | .error a, .error b => decidable_of_iff (a = b) (by simp)
    | .ok _, .error _ => isFalse (by simp)
    | .error _, .ok _ => isFalse (by simp)

/-- First-match association-list lookup (Python `dict.get`). -/
def alookup {α β : Type} [DecidableEq α] (l : List (α × β)) (k : α) : Option β :=
  (l.find? (fun p => decide (p.1 = k))).map (fun p => p.2)

/-- Dict assignment `d[k] = v`: prepend, so the newest binding wins. -/
def aset {α β : Type} (l : List (α × β)) (k : α) (v : β) : List (α × β) :=
  (k, v) :: l

/-- Python `dict.setdefault(k, v)`: insert only when the key is absent. -/
def asetdefault {α β : Type} [DecidableEq α] (l : List (α × β)) (k : α) (v : β) :
    List (α × β) :=
  match alookup l k with
  | some _ => l
  | none => aset l k v

/-- The kline provider loop of the technical section: providers are tried
in order; any provider other than "tencent" is skipped with a log; a raise
is caught, recorded as the latest error and the loop continues.  Returns
the stored cache value and source tag: on success `(ok summary, provider)`,
on exhaustion the error dict `{"error": str(last_err) or "获取K线失败"}`
tagged "unavailable". -/
def tryKlineProviders {T : Type} (fetch : String → String → Except String T)
    (sym : String) : List String → Option String → Except String T × String
  | [], lastErr =>
    (.error (match lastErr with | some e => e | none => "获取K线失败"), "unavailable")
  | p :: rest, lastErr =>
    if p = "tencent" then
      match fetch p sym with
      | .ok v => (.ok v, p)
      | .error e => tryKlineProviders fetch sym rest (some e)
    else tryKlineProviders fetch sym rest lastErr

/-- The capital-flow provider loop (same pattern, provider "eastmoney",
exhaustion message "获取资金流向失败"). -/
def tryFlowProviders {F : Type} (fetch : String → String → Except String F)
    (sym : String) : List String → Option String → Except String F × String
  | [], lastErr =>
    (.error (match lastErr with | some e => e | none => "获取资金流向失败"), "unavailable")
  | p :: rest, lastErr =>
    if p = "eastmoney" then
      match fetch p sym with
      | .ok v => (.ok v, p)
      | .error e => tryFlowProviders fetch sym rest (some e)
    else tryFlowProviders fetch sym rest lastErr

/-- State threaded through the technical section: the builder's
`_tech_cache` / `_tech_source_cache` plus the local `tech_map`. -/
structure TechState (T : Type) where
  (cache : List ((MarketCode × String) × Except String T))
  (src : List ((MarketCode × String) × String))
  (map : List (String × Except String T))

/-- One iteration of `for sym, market, _ in symbols` in the technical
section (lines 214-246 of `signal_pack.py`): resolve via cache, the
disabled marker, or the provider loop; then `tech_map[sym] = cache[key]`
and backfill the "cache" source tag when the key came from the cache. -/
def techStep {T : Type} (klineProviders : List String) (klineDisabled : Bool)
    (fetch : String → String → Except String T)
    (st : TechState T) (entry : String × MarketCode × String) : TechState T :=
  let sym := entry.1
  let market := entry.2.1
  let key := (market, sym)
  let st1 :=
    match alookup st.cache key with
    | some _ => st
    | none =>
      if klineDisabled then
        { cache := aset st.cache key (.error "K线数据源已禁用"),
          src := aset st.src key "disabled",
          map := st.map }
      else
        match tryKlineProviders fetch sym klineProviders none with
        | (.ok v, p) =>
          { cache := aset st.cache key (.ok v),
            src := aset st.src key p,
            map := st.map }
        | (.error e, _) =>
          { cache := aset st.cache key (.error e),
            src := asetdefault st.src key "unavailable",
            map := st.map }
  let v := (alookup st1.cache key).getD (.error "获取K线失败")
  { cache := st1.cache,
    src := asetdefault st1.src key "cache",
    map := aset st1.map sym v }

/-- The whole technical section: a fold of `techStep` over the symbol
list, starting from the builder's current caches (empty for a fresh
builder).  Skipped entirely unless `include_technical`. -/
def techSection {T : Type} (includeTechnical : Bool) (klineProviders : List String)
    (klineDisabled : Bool) (fetch : String → String → Except String T)
    (symbols : List (String × MarketCode × String)) (st0 : TechState T) : TechState T :=
  if includeTechnical then symbols.foldl (techStep klineProviders klineDisabled fetch) st0
  else st0

/-- State threaded through the capital-flow section (`_flow_cache`,
`_flow_source_cache`, local `flow_map`). -/
structure FlowState (F : Type) where
  (cache : List ((MarketCode × String) × Except String F))
  (src : List ((MarketCode × String) × String))
  (map : List (String × Except String F))

/-- One iteration of the disabled branch of the capital-flow section
(lines 288-293): store the disabled error dict and provenance for the
symbol and expose it in `flow_map`. -/
def flowDisabledStep {F : Type} (st : FlowState F) (sym : String) : FlowState F :=
  let key := (MarketCode.CN, sym)
  let errv : Except String F := .error "资金流向数据源已禁用"
  { cache := aset st.cache key errv,
    src := aset st.src key "disabled",
    map := aset st.map sym errv }

/-- One iteration of the enabled branch of the capital-flow section
(lines 301-334): serve from cache (backfilling the "cache" tag), else run
the provider loop and record the result. -/
def flowStep {F : Type} (flowProviders : List String)
    (fetch : String → String → Except String F)
    (st : FlowState F) (sym : String) : FlowState F :=
  let key := (MarketCode.CN, sym)
  match alookup st.cache key with
  | some v =>
    { cache := st.cache,
      src := asetdefault st.src key "cache",
      map := aset st.map sym v }
  | none =>
    match tryFlowProviders fetch sym flowProviders none with
    | (.ok v, p) =>
      { cache := aset st.cache key (.ok v),
        src := aset st.src key p,
        map := aset st.map sym (.ok v) }
    | (.error e, _) =>
      { cache := aset st.cache key (.error e),
        src := asetdefault st.src key "unavailable",
        map := aset st.map sym (.error e) }

/-- The capital-flow section: runs only when `include_capital_flow` and
only over the CN symbols of the batch; when every configured provider is
disabled the disabled marker is stored without consulting the fetch
oracle. -/
def flowSection {F : Type} (includeCapitalFlow : Bool) (flowProviders : List String)
    (flowDisabled : Bool) (fetch : String → String → Except String F)
    (symbols : List (String × MarketCode × String)) (st0 : FlowState F) : FlowState F :=
  if includeCapitalFlow then
    let cn_symbols := (symbols.filter (fun e => decide (e.2.1 = MarketCode.CN))).map
      (fun e => e.1)
    if cn_symbols = [] then st0
    else if flowDisabled then cn_symbols.foldl flowDisabledStep st0
    else cn_symbols.foldl (flowStep flowProviders fetch) st0
  else st0

/-- Python truthiness of the `missing` test
`not tech or tech.get("error")`: absent or empty dicts count as missing,
and an error dict counts only when its message string is truthy
(nonempty). -/
def facetMissing {T : Type} : Option (Except String T) → Bool
  | none => true
  | some (.error e) => decide (e ≠ "")
  | some (.ok _) => false

/-- The `sources` provenance map of a pack. -/
structure PackSources where
  (quote : String)
  (kline : String)
  (news : String)
  (capital_flow : String)
  (events : String)
deriving DecidableEq, Repr

/-- The per-symbol `SignalPack` fields this embedding tracks: the facets
the technical and capital-flow sections populate, the provenance map and
the `missing` list.  `technical`/`capital_flow` hold `none` when the facet
was not requested (or, for capital flow, for a non-CN symbol). -/
structure Pack (Q T F : Type) where
  (symbol : String)
  (name : String)
  (market : MarketCode)
  (quote : Option Q)
  (technical : Option (Except String T))
  (capital_flow : Option (Except String F))
  (sources : PackSources)
  (missing : List String)

/-- All configuration and oracle inputs of one `build_for_symbols` call. -/
structure BuildConfig (Q T F : Type) where
  (klineProviders : List String)
  (klineDisabled : Bool)
  (flowProviders : List String)
  (flowDisabled : Bool)
  (klineFetch : String → String → Except String T)
  (flowFetch : String → String → Except String F)
  (quoteMap : String → Option Q)
  (quoteSrc : MarketCode → String → String)
  (includeTechnical : Bool)
  (includeNews : Bool)
  (newsNonempty : String → Bool)
  (includeEvents : Bool)
  (eventsNonempty : String → Bool)
  (eventsSource : String)
  (includeCapitalFlow : Bool)

/-- The `missing` list assembled for one symbol (lines 430-446), in source
order: quote, kline, news, events, capital_flow. -/
def missingFor {Q T F : Type} (cfg : BuildConfig Q T F)
    (techMap : List (String × Except String T))
    (flowMap : List (String × Except String F))
    (sym : String) (market : MarketCode) : List String :=
  (if (cfg.quoteMap sym).isNone then ["quote"] else []) ++
  (if cfg.includeTechnical ∧ facetMissing (alookup techMap sym) then ["kline"] else []) ++
  (if cfg.includeNews ∧ ¬ cfg.newsNonempty sym then ["news"] else []) ++
  (if cfg.includeEvents ∧ ¬ cfg.eventsNonempty sym then ["events"] else []) ++
  (if cfg.includeCapitalFlow ∧ market = MarketCode.CN ∧
      facetMissing (alookup flowMap sym) then ["capital_flow"] else [])

/-- The pack assembled for one `(sym, market, name)` entry (lines
448-489). -/
def packFor {Q T F : Type} (cfg : BuildConfig Q T F)
    (tech : TechState T) (flow : FlowState F)
    (entry : String × MarketCode × String) : Pack Q T F :=
  let sym := entry.1
  let market := entry.2.1
  { symbol := sym,
    name := entry.2.2,
    market := market,
    quote := cfg.quoteMap sym,
    technical := if cfg.includeTechnical then alookup tech.map sym else none,
    capital_flow :=
      if cfg.includeCapitalFlow ∧ market = MarketCode.CN then alookup flow.map sym
      else none,
    sources :=
      { quote := cfg.quoteSrc market sym,
        kline :=
          if cfg.includeTechnical then (alookup tech.src (market, sym)).getD "unknown"
          else "skipped",
        news := if cfg.includeNews then "db" else "skipped",
        capital_flow :=
          if cfg.includeCapitalFlow ∧ market = MarketCode.CN then
            (alookup flow.src (MarketCode.CN, sym)).getD "unknown"
          else "skipped",
        events := if cfg.includeEvents then cfg.eventsSource else "skipped" },
    missing := missingFor cfg tech.map flow.map sym market }

/-- `SignalPackBuilder.build_for_symbols` on a fresh builder (all caches
empty): run the technical and capital-flow sections, then assemble one
pack per symbol into the `packs` dict (last assignment wins for duplicate
symbols, as in a Python dict). -/
def build_for_symbols {Q T F : Type} (cfg : BuildConfig Q T F)
    (symbols : List (String × MarketCode × String)) : List (String × Pack Q T F) :=
  let tech := techSection cfg.includeTechnical cfg.klineProviders cfg.klineDisabled
    cfg.klineFetch symbols ⟨[], [], []⟩
  let flow := flowSection cfg.includeCapitalFlow cfg.flowProviders cfg.flowDisabled
    cfg.flowFetch symbols ⟨[], [], []⟩
  symbols.foldl (fun packs e => aset packs e.1 (packFor cfg tech flow e)) []

/-- Invariant of the technical section with providers enabled: every
cached value and every `tech_map` value is exactly the outcome of the
provider loop for its symbol. -/
def TechInv {T : Type} (providers : List String)
    (fetch : String → String → Except String T) (st : TechState T) : Prop :=
  (∀ (key : MarketCode × String) (v : Except String T),
    alookup st.cache key = some v → v = (tryKlineProviders fetch key.2 providers none).1) ∧
  (∀ (sym : String) (v : Except String T),
    alookup st.map sym = some v → v = (tryKlineProviders fetch sym providers none).1)

/-! ## Concrete inputs used by the claim theorems -/

/-- Build a bar with an empty date string. -/
def mkBar (o c h l v : ℚ) : KlineData := ⟨"", o, c, h, l, v⟩

/-- The constant volume 1,000,000 of the C1 scenario, as a raw rational. -/
def qVol : ℚ := ⟨1000000, 1, by decide, by decide⟩

/-- The closes 10 + 2i/29, i = 0..29, of the 30-bar C1 scenario
(rising steadily from 10.00 to 12.00), as raw normalized rationals. -/
def c1q0 : ℚ := ⟨10, 1, by decide, by decide⟩
def c1q1 : ℚ := ⟨292, 29, by decide, by decide⟩
def c1q2 : ℚ := ⟨294, 29, by decide, by decide⟩
def c1q3 : ℚ := ⟨296, 29, by decide, by decide⟩
def c1q4 : ℚ := ⟨298, 29, by decide, by decide⟩
def c1q5 : ℚ := ⟨300, 29, by decide, by decide⟩
def c1q6 : ℚ := ⟨302, 29, by decide, by decide⟩
def c1q7 : ℚ := ⟨304, 29, by decide, by decide⟩
def c1q8 : ℚ := ⟨306, 29, by decide, by decide⟩
def c1q9 : ℚ := ⟨308, 29, by decide, by decide⟩
def c1q10 : ℚ := ⟨310, 29, by decide, by decide⟩
def c1q11 : ℚ := ⟨312, 29, by decide, by decide⟩
def c1q12 : ℚ := ⟨314, 29, by decide, by decide⟩
def c1q13 : ℚ := ⟨316, 29, by decide, by decide⟩
def c1q14 : ℚ := ⟨318, 29, by decide, by decide⟩
def c1q15 : ℚ := ⟨320, 29, by decide, by decide⟩
def c1q16 : ℚ := ⟨322, 29, by decide, by decide⟩
def c1q17 : ℚ := ⟨324, 29, by decide, by decide⟩
def c1q18 : ℚ := ⟨326, 29, by decide, by decide⟩
def c1q19 : ℚ := ⟨328, 29, by decide, by decide⟩
def c1q20 : ℚ := ⟨330, 29, by decide, by decide⟩
def c1q21 : ℚ := ⟨332, 29, by decide, by decide⟩
def c1q22 : ℚ := ⟨334, 29, by decide, by decide⟩
def c1q23 : ℚ := ⟨336, 29, by decide, by decide⟩
def c1q24 : ℚ := ⟨338, 29, by decide, by decide⟩
def c1q25 : ℚ := ⟨340, 29, by decide, by decide⟩
def c1q26 : ℚ := ⟨342, 29, by decide, by decide⟩
def c1q27 : ℚ := ⟨344, 29, by decide, by decide⟩
def c1q28 : ℚ := ⟨346, 29, by decide, by decide⟩
def c1q29 : ℚ := ⟨12, 1, by decide, by decide⟩

/-- The 30-bar C1 series: open = high = low = close = 10 + 2i/29,
volume constant 1,000,000. -/
def c1Bars : List KlineData :=
  [mkBar c1q0 c1q0 c1q0 c1q0 qVol,
   mkBar c1q1 c1q1 c1q1 c1q1 qVol,
   mkBar c1q2 c1q2 c1q2 c1q2 qVol,
   mkBar c1q3 c1q3 c1q3 c1q3 qVol,
   mkBar c1q4 c1q4 c1q4 c1q4 qVol,
   mkBar c1q5 c1q5 c1q5 c1q5 qVol,
   mkBar c1q6 c1q6 c1q6 c1q6 qVol,
   mkBar c1q7 c1q7 c1q7 c1q7 qVol,
   mkBar c1q8 c1q8 c1q8 c1q8 qVol,
   mkBar c1q9 c1q9 c1q9 c1q9 qVol,
   mkBar c1q10 c1q10 c1q10 c1q10 qVol,
   mkBar c1q11 c1q11 c1q11 c1q11 qVol,
   mkBar c1q12 c1q12 c1q12 c1q12 qVol,
   mkBar c1q13 c1q13 c1q13 c1q13 qVol,
   mkBar c1q14 c1q14 c1q14 c1q14 qVol,
   mkBar c1q15 c1q15 c1q15 c1q15 qVol,
   mkBar c1q16 c1q16 c1q16 c1q16 qVol,
   mkBar c1q17 c1q17 c1q17 c1q17 qVol,
   mkBar c1q18 c1q18 c1q18 c1q18 qVol,
   mkBar c1q19 c1q19 c1q19 c1q19 qVol,
   mkBar c1q20 c1q20 c1q20 c1q20 qVol,
   mkBar c1q21 c1q21 c1q21 c1q21 qVol,
   mkBar c1q22 c1q22 c1q22 c1q22 qVol,
   mkBar c1q23 c1q23 c1q23 c1q23 qVol,
   mkBar c1q24 c1q24 c1q24 c1q24 qVol,
   mkBar c1q25 c1q25 c1q25 c1q25 qVol,
   mkBar c1q26 c1q26 c1q26 c1q26 qVol,
   mkBar c1q27 c1q27 c1q27 c1q27 qVol,
   mkBar c1q28 c1q28 c1q28 c1q28 qVol,
   mkBar c1q29 c1q29 c1q29 c1q29 qVol]

open Classical in
/-- The summary computed on the C1 series. -/
noncomputable def c1summary : KlineSummary :=
  (get_kline_summary_pure c1Bars).getD default

/-- Nine bars with open = high = low = close = 1..9: the minimal KDJ
window, whose RSV at the single computable point is 100. -/
def c2Bars : List KlineData :=
  [mkBar 1 1 1 1 0, mkBar 2 2 2 2 0, mkBar 3 3 3 3 0,
   mkBar 4 4 4 4 0, mkBar 5 5 5 5 0, mkBar 6 6 6 6 0,
   mkBar 7 7 7 7 0, mkBar 8 8 8 8 0, mkBar 9 9 9 9 0]

/-- Eleven bars with open = high = low = close = 1..11: every RSV after
the seed is 100, so J climbs above 100 by the third computable point. -/
def c9Bars : List KlineData :=
  [mkBar 1 1 1 1 0, mkBar 2 2 2 2 0, mkBar 3 3 3 3 0,
   mkBar 4 4 4 4 0, mkBar 5 5 5 5 0, mkBar 6 6 6 6 0,
   mkBar 7 7 7 7 0, mkBar 8 8 8 8 0, mkBar 9 9 9 9 0,
   mkBar 10 10 10 10 0, mkBar 11 11 11 11 0]

/-- The J series computed on `c9Bars`. -/
def c9J : List ℚ := ((_calculate_kdj c9Bars 9 3 3).getD ([], [], [])).2.2

/-- An arbitrary preceding bar for pattern examples. -/
def dojiPrev : KlineData := mkBar 100 100 100 100 0

/-- The doji example bar of the spec: open 100, close 100.05, high 105,
low 95. -/
def dojiCurr : KlineData := mkBar 100 (2001/20) 105 95 0

/-- A small-body bar whose two shadows both exceed twice the body while
the upper shadow also exceeds three times the body: open 100, close
100.01, high 110, low 99.9. -/
def c3Curr : KlineData := mkBar 100 (10001/100) 110 (999/10) 0

/-- A `BuildConfig` whose kline provider raises an empty-message exception
for symbol "AAA" and succeeds for symbol "BBB". -/
def c6cfg : BuildConfig Unit Unit Unit :=
  { klineProviders := ["tencent"], klineDisabled := false,
    flowProviders := ["eastmoney"], flowDisabled := false,
    klineFetch := fun _ sym => if sym = "AAA" then .error "" else .ok (),
    flowFetch := fun _ _ => .error "x",
    quoteMap := fun _ => none, quoteSrc := fun _ _ => "unknown",
    includeTechnical := true, includeNews := false,
    newsNonempty := fun _ => false, includeEvents := false,
    eventsNonempty := fun _ => false, eventsSource := "unknown",
    includeCapitalFlow := false }

/-- The two-symbol batch of the C6 scenario. -/
def c6symbols : List (String × MarketCode × String) :=
  [("AAA", MarketCode.CN, "a"), ("BBB", MarketCode.CN, "b")]

/-- The packs built in the C6 empty-message scenario. -/
def c6packs : List (String × Pack Unit Unit Unit) :=
  build_for_symbols c6cfg c6symbols

/-- The C6 config with a nonempty exception message: the kline provider
raises "boom" for "AAA" and succeeds for "BBB". -/
def c6cfg2 : BuildConfig Unit Unit Unit :=
  { c6cfg with klineFetch := fun _ sym => if sym = "AAA" then .error "boom" else .ok () }

/-- A placeholder pack (never looked up by the theorems below). -/
def dummyPack : Pack Unit Unit Unit :=
  ⟨"", "", MarketCode.CN, none, none, none, ⟨"", "", "", "", ""⟩, []⟩

/-- A `BuildConfig` for the C4 scenario: capital flow requested while all
of its configured providers are disabled. -/
def c4cfg : BuildConfig Unit Unit Unit :=
  { klineProviders := ["tencent"], klineDisabled := false,
    flowProviders := [], flowDisabled := true,
    klineFetch := fun _ _ => .ok (),
    flowFetch := fun _ _ => .error "x",
    quoteMap := fun _ => none, quoteSrc := fun _ _ => "unknown",
    includeTechnical := false, includeNews := false,
    newsNonempty := fun _ => false, includeEvents := false,
    eventsNonempty := fun _ => false, eventsSource := "unknown",
    includeCapitalFlow := true }

/-- The single-CN-symbol batch of the C4 scenario. -/
def c4symbols : List (String × MarketCode × String) :=
  [("600000", MarketCode.CN, "s")]

/-- The packs built in the C4 disabled-capital-flow scenario. -/
def c4packs : List (String × Pack Unit Unit Unit) :=
  build_for_symbols c4cfg c4symbols

/-! ## Helper lemmas about `listMax` / `listMin` and snapshot projections -/

theorem foldl_max_init_le : ∀ (ys : List ℚ) (a : ℚ), a ≤ ys.foldl max a
  | [], a => le_refl a
  | y :: ys, a => le_trans (le_max_left a y) (foldl_max_init_le ys (max a y))

theorem foldl_max_le_of_mem : ∀ (ys : List ℚ) (a x : ℚ), x ∈ ys → x ≤ ys.foldl max a
  | [], _, x, hx => absurd hx (List.not_mem_nil x)
  | y :: ys, a, x, hx => by
    rcases List.mem_cons.mp hx with rfl | h
    · exact le_trans (le_max_right a x) (foldl_max_init_le ys (max a x))
    · exact foldl_max_le_of_mem ys (max a y) x h

theorem foldl_max_mem : ∀ (ys : List ℚ) (a : ℚ), ys.foldl max a ∈ a :: ys := by
  intro ys
  induction ys with
  | nil => intro a; simp [List.foldl]
  | cons y ys ih =>
    intro a
    simp only [List.foldl_cons]
    rcases List.mem_cons.mp (ih (max a y)) with h1 | h1
    · rcases max_choice a y with hm | hm
      · rw [h1, hm]
        exact List.mem_cons_self _ _
      · rw [h1, hm]
        exact List.mem_cons_of_mem _ (List.mem_cons_self _ _)
    · exact List.mem_cons_of_mem _ (List.mem_cons_of_mem _ h1)

theorem foldl_min_init_le : ∀ (ys : List ℚ) (a : ℚ), ys.foldl min a ≤ a
  | [], a => le_refl a
  | y :: ys, a => le_trans (foldl_min_init_le ys (min a y)) (min_le_left a y)

theorem foldl_min_le_of_mem : ∀ (ys : List ℚ) (a x : ℚ), x ∈ ys → ys.foldl min a ≤ x
  | [], _, x, hx => absurd hx (List.not_mem_nil x)
  | y :: ys, a, x, hx => by
    rcases List.mem_cons.mp hx with rfl | h
    · exact le_trans (foldl_min_init_le ys (min a x)) (min_le_right a x)
    · exact foldl_min_le_of_mem ys (min a y) x h

theorem foldl_min_mem : ∀ (ys : List ℚ) (a : ℚ), ys.foldl min a ∈ a :: ys := by
  intro ys
  induction ys with
  | nil => intro a; simp [List.foldl]
  | cons y ys ih =>
    intro a
    simp only [List.foldl_cons]
    rcases List.mem_cons.mp (ih (min a y)) with h1 | h1
    · rcases min_choice a y with hm | hm
      · rw [h1, hm]
        exact List.mem_cons_self _ _
      · rw [h1, hm]
        exact List.mem_cons_of_mem _ (List.mem_cons_self _ _)
    · exact List.mem_cons_of_mem _ (List.mem_cons_of_mem _ h1)

/-- Python `max` of a nonempty list is an element of it. -/
theorem listMax_mem : ∀ (l : List ℚ), l ≠ [] → listMax l ∈ l
  | [], h => absurd rfl h
  | x :: xs, _ => foldl_max_mem xs x

/-- Python `max` of a list bounds each of its elements from above. -/
theorem le_listMax : ∀ (l : List ℚ) (x : ℚ), x ∈ l → x ≤ listMax l
  | [], x, hx => absurd hx (List.not_mem_nil x)
  | y :: ys, x, hx => by
    rcases List.mem_cons.mp hx with rfl | h
    · exact foldl_max_init_le ys x
    · exact foldl_max_le_of_mem ys y x h

/-- Python `min` of a nonempty list is an element of it. -/
theorem listMin_mem : ∀ (l : List ℚ), l ≠ [] → listMin l ∈ l
  | [], h => absurd rfl h
  | x :: xs, _ => foldl_min_mem xs x

/-- Python `min` of a list bounds each of its elements from below. -/
theorem listMin_le : ∀ (l : List ℚ) (x : ℚ), x ∈ l → listMin l ≤ x
  | [], x, hx => absurd hx (List.not_mem_nil x)
  | y :: ys, x, hx => by
    rcases List.mem_cons.mp hx with rfl | h
    · exact foldl_min_init_le ys x
    · exact foldl_min_le_of_mem ys y x h

/-- The `ma5` field of the snapshot is `_calculate_ma` of the closes. -/
theorem gti_ma5 (klines : List KlineData) :
    (get_technical_indicators_pure klines).ma5 =
      _calculate_ma (klines.map KlineData.close) 5 := by
  by_cases h : klines = []
  · subst h
    rfl
  · unfold get_technical_indicators_pure
    rw [if_neg h]

/-- The `ma10` field of the snapshot is `_calculate_ma` of the closes. -/
theorem gti_ma10 (klines : List KlineData) :
    (get_technical_indicators_pure klines).ma10 =
      _calculate_ma (klines.map KlineData.close) 10 := by
  by_cases h : klines = []
  · subst h
    rfl
  · unfold get_technical_indicators_pure
    rw [if_neg h]

/-- The `ma20` field of the snapshot is `_calculate_ma` of the closes. -/
theorem gti_ma20 (klines : List KlineData) :
    (get_technical_indicators_pure klines).ma20 =
      _calculate_ma (klines.map KlineData.close) 20 := by
  by_cases h : klines = []
  · subst h
    rfl
  · unfold get_technical_indicators_pure
    rw [if_neg h]

/-- The `ma60` field of the snapshot is `_calculate_ma` of the closes. -/
theorem gti_ma60 (klines : List KlineData) :
    (get_technical_indicators_pure klines).ma60 =
      _calculate_ma (klines.map KlineData.close) 60 := by
  by_cases h : klines = []
  · subst h
    rfl
  · unfold get_technical_indicators_pure
    rw [if_neg h]

/-- The `support_m` field of the snapshot: minimum low of the last 20 bars
when at least 20 exist. -/
theorem gti_support_m (klines : List KlineData) :
    (get_technical_indicators_pure klines).support_m =
      (if klines.length ≥ 20 then
        some (listMin ((klines.drop (klines.length - 20)).map KlineData.low))
      else none) := by
  by_cases h : klines = []
  · subst h
    rfl
  · unfold get_technical_indicators_pure
    rw [if_neg h]

/-- The `resistance_m` field of the snapshot: maximum high of the last 20
bars when at least 20 exist. -/
theorem gti_resistance_m (klines : List KlineData) :
    (get_technical_indicators_pure klines).resistance_m =
      (if klines.length ≥ 20 then
        some (listMax ((klines.drop (klines.length - 20)).map KlineData.high))
      else none) := by
  by_cases h : klines = []
  · subst h
    rfl
  · unfold get_technical_indicators_pure
    rw [if_neg h]

/-- The `volume_trend` field of the snapshot comes from `volume_fields`
applied to the volumes. -/
theorem gti_volume_trend (klines : List KlineData) :
    (get_technical_indicators_pure klines).volume_trend =
      (volume_fields (klines.map KlineData.volume)).2 := by
  by_cases h : klines = []
  · subst h
    rfl
  · unfold get_technical_indicators_pure
    rw [if_neg h]

/-! ## Claim theorems -/

/-- C2 (amended): with exactly 9 bars the single computable KDJ point is
the bare seed `K = D = 50` (the RSV of that point is never blended in),
and hence `J = 3K - 2D = 50`, inside `[0, 100]`. -/
theorem c2_nine_bar_seed (klines : List KlineData) (h : klines.length = 9) :
    _calculate_kdj klines 9 3 3 = some ([50], [50], [50]) := by
  have h9 : ¬ klines.length < 9 := by omega
  have hr : List.range 1 = [0] := rfl
  simp [_calculate_kdj, h9, kdjRsvList, h, kdjSeq, kdjScan, hr]
  norm_num

/-- Witness for `c2_nine_bar_seed` at the concrete nine-bar series. -/
theorem c2_nine_bar_seed_witness :
    c2Bars.length = 9 ∧ _calculate_kdj c2Bars 9 3 3 = some ([50], [50], [50]) :=
  ⟨by decide, c2_nine_bar_seed c2Bars (by decide)⟩

/-- C2 counterexample: on nine rising bars the RSV at the first computable
point is 100, yet K (and D) are exactly 50 — not the claimed
`(2/3)·50 + (1/3)·RSV` smoothing of the seed. -/
theorem c2_seed_not_smoothed :
    c2Bars.length = 9 ∧
    kdjRsvAt c2Bars 9 8 = 100 ∧
    _calculate_kdj c2Bars 9 3 3 = some ([50], [50], [50]) ∧
    (50 : ℚ) ≠ (2/3) * 50 + (1/3) * kdjRsvAt c2Bars 9 8 := by
  refine ⟨by decide, ?_, ?_, ?_⟩
  · with_unfolding_all decide
  · with_unfolding_all decide
  · with_unfolding_all decide

/-- C10: pattern detection returns `None` on any series shorter than two
bars, and on longer series the label depends only on the last two bars. -/
theorem c10_pattern_needs_two_bars :
    (∀ klines : List KlineData, klines.length < 2 →
      _detect_kline_pattern klines = none) ∧
    (∀ (rest : List KlineData) (prev curr : KlineData),
      _detect_kline_pattern (rest ++ [prev, curr]) = patternOf prev curr) := by
  constructor
  · intro klines h
    rcases klines with _ | ⟨a, _ | ⟨b, t⟩⟩
    · rfl
    · rfl
    · simp only [List.length_cons] at h
      omega
  · intro rest prev curr
    simp [_detect_kline_pattern, List.reverse_append]

/-- Witness for `c10_pattern_needs_two_bars`: a single bar that satisfies
the doji criteria (it classifies as doji when last of a two-bar series) is
still never classified on its own. -/
theorem c10_pattern_needs_two_bars_witness :
    _detect_kline_pattern [dojiCurr] = none ∧
    patternOf dojiPrev dojiCurr = some "十字星" :=
  ⟨c10_pattern_needs_two_bars.1 [dojiCurr] (by decide),
   by norm_num [patternOf, dojiPrev, dojiCurr, mkBar, abs, max_def, min_def]⟩

/-- C3 counterexample: a bar whose body ratio is below 0.1, whose two
shadows both exceed twice the body AND whose upper shadow exceeds three
times the body classifies as "十字星" (doji) — the "additionally
upper_shadow > 3×body" cases of the claim are reachable only when the
two-shadow doji test has already failed. -/
theorem c3_doji_precedence :
    |c3Curr.close - c3Curr.«open»| / (c3Curr.high - c3Curr.low) < 1/10 ∧
    c3Curr.high - max c3Curr.close c3Curr.«open» >
      |c3Curr.close - c3Curr.«open»| * 3 ∧
    c3Curr.high - max c3Curr.close c3Curr.«open» >
      |c3Curr.close - c3Curr.«open»| * 2 ∧
    min c3Curr.close c3Curr.«open» - c3Curr.low >
      |c3Curr.close - c3Curr.«open»| * 2 ∧
    _detect_kline_pattern [dojiPrev, c3Curr] = some "十字星" ∧
    (some "十字星" : Option String) ≠ some "倒T字" := by
  refine ⟨?_, ?_, ?_, ?_, ?_, by decide⟩
  · norm_num [c3Curr, mkBar, abs]
  · norm_num [c3Curr, mkBar, abs, max_def]
  · norm_num [c3Curr, mkBar, abs, max_def]
  · norm_num [c3Curr, mkBar, abs, min_def]
  · norm_num [_detect_kline_pattern, patternOf, dojiPrev, c3Curr, mkBar, abs,
      max_def, min_def]

/-- C3 (amended): for the last bar of a two-or-more-bar series with
nonzero range and body ratio below 0.1: both shadows above twice the body
give "十字星"; otherwise an upper shadow above three times the body gives
"倒T字"; otherwise a lower shadow above three times the body gives
"T字线".  The spec example bar (open 100, close 100.05, high 105, low 95)
classifies as "十字星". -/
theorem c3_doji_rules (prev curr : KlineData)
    (hrange : curr.high - curr.low ≠ 0)
    (hratio : |curr.close - curr.«open»| / (curr.high - curr.low) < 1/10) :
    (curr.high - max curr.close curr.«open» > |curr.close - curr.«open»| * 2 ∧
        min curr.close curr.«open» - curr.low > |curr.close - curr.«open»| * 2 →
      patternOf prev curr = some "十字星") ∧
    (¬ (curr.high - max curr.close curr.«open» > |curr.close - curr.«open»| * 2 ∧
        min curr.close curr.«open» - curr.low > |curr.close - curr.«open»| * 2) →
      curr.high - max curr.close curr.«open» > |curr.close - curr.«open»| * 3 →
      patternOf prev curr = some "倒T字") ∧
    (¬ (curr.high - max curr.close curr.«open» > |curr.close - curr.«open»| * 2 ∧
        min curr.close curr.«open» - curr.low > |curr.close - curr.«open»| * 2) →
      ¬ curr.high - max curr.close curr.«open» > |curr.close - curr.«open»| * 3 →
      min curr.close curr.«open» - curr.low > |curr.close - curr.«open»| * 3 →
      patternOf prev curr = some "T字线") ∧
    _detect_kline_pattern [dojiPrev, dojiCurr] = some "十字星" := by
  refine ⟨?_, ?_, ?_,
    by norm_num [_detect_kline_pattern, patternOf, dojiPrev, dojiCurr, mkBar, abs,
      max_def, min_def]⟩
  · intro hb
    simp only [patternOf]
    rw [if_neg hrange, if_pos ⟨hratio, hb.1, hb.2⟩]
  · intro hb h3
    simp only [patternOf]
    rw [if_neg hrange, if_neg (fun hc => hb ⟨hc.2.1, hc.2.2⟩), if_pos ⟨hratio, h3⟩]
  · intro hb h3 hl
    simp only [patternOf]
    rw [if_neg hrange, if_neg (fun hc => hb ⟨hc.2.1, hc.2.2⟩),
        if_neg (fun hc => h3 hc.2), if_pos ⟨hratio, hl⟩]

/-- Witness for `c3_doji_rules` at the spec example bar. -/
theorem c3_doji_rules_witness :
    patternOf dojiPrev dojiCurr = some "十字星" :=
  (c3_doji_rules dojiPrev dojiCurr (by norm_num [dojiCurr, mkBar])
    (by norm_num [dojiCurr, mkBar, abs])).1
    (by norm_num [dojiCurr, mkBar, abs, max_def, min_def])

/-- Every entry of the `gains` list of `_calculate_rsi` is nonnegative. -/
theorem rsiGains_nonneg (closes : List ℚ) : ∀ x ∈ rsiGains closes, 0 ≤ x := by
  intro x hx
  simp only [rsiGains, List.mem_map] at hx
  obtain ⟨p, -, rfl⟩ := hx
  by_cases h : p.2 - p.1 > 0
  · rw [if_pos h]
    linarith
  · rw [if_neg h]

/-- Every entry of the `losses` list of `_calculate_rsi` is nonnegative. -/
theorem rsiLosses_nonneg (closes : List ℚ) : ∀ x ∈ rsiLosses closes, 0 ≤ x := by
  intro x hx
  simp only [rsiLosses, List.mem_map] at hx
  obtain ⟨p, -, rfl⟩ := hx
  by_cases h : p.2 - p.1 > 0
  · rw [if_pos h]
  · rw [if_neg h]
    exact abs_nonneg _

/-- On a strictly increasing list, every adjacent pair taken by
`zip l l.tail` is strictly increasing. -/
theorem chain_zip_lt :
    ∀ l : List ℚ, List.Chain' (· < ·) l → ∀ p ∈ l.zip l.tail, p.1 < p.2
  | [], _, p, hp => by simp at hp
  | [_], _, p, hp => by simp at hp
  | a :: b :: t, h, p, hp => by
    rw [List.chain'_cons] at h
    rcases (by simpa using hp : p = (a, b) ∨ p ∈ (b :: t).zip t) with rfl | hmem
    · exact h.1
    · exact chain_zip_lt (b :: t) h.2 p (by simpa using hmem)

/-- The arithmetic heart of the RSI bound: with nonnegative average gain
and positive average loss, `100 - 100 / (1 + rs)` lies in `[0, 100]`. -/
theorem rsi_bounds_aux (ag al : ℚ) (hga : 0 ≤ ag) (hla : 0 ≤ al) (hz : al ≠ 0) :
    0 ≤ 100 - 100 / (1 + ag / al) ∧ 100 - 100 / (1 + ag / al) ≤ 100 := by
  have hlpos : 0 < al := lt_of_le_of_ne hla (Ne.symm hz)
  have hrs : 0 ≤ ag / al := div_nonneg hga (le_of_lt hlpos)
  constructor
  · have hle : (100 : ℚ) / (1 + ag / al) ≤ 100 := div_le_self (by norm_num) (by linarith)
    linarith
  · have hpos : (0 : ℚ) < 100 / (1 + ag / al) := by positivity
    linarith

/-- C5: RSI needs `period + 1` closes; it matches the spec's
trailing-window simple-mean formula (gains/losses as positive parts of the
daily deltas, 100 on zero average loss); its value always lies in
`[0, 100]`; and a strictly increasing close series of length ≥ 7 yields
RSI6 = 100. -/
theorem c5_rsi_spec :
    (∀ (closes : List ℚ) (period : ℕ), 1 ≤ period →
      (_calculate_rsi closes period = none ↔ closes.length < period + 1)) ∧
    (∀ (closes : List ℚ) (period : ℕ), 1 ≤ period →
      _calculate_rsi closes period = rsiSpec closes period) ∧
    (∀ (closes : List ℚ) (period : ℕ) (r : ℚ), 1 ≤ period →
      _calculate_rsi closes period = some r → 0 ≤ r ∧ r ≤ 100) ∧
    (∀ closes : List ℚ, 7 ≤ closes.length → List.Chain' (· < ·) closes →
      _calculate_rsi closes 6 = some 100) := by
  have habs : ∀ p : ℚ × ℚ,
      (if p.2 - p.1 > 0 then p.2 - p.1 else 0) = max (p.2 - p.1) 0 := by
    intro p
    by_cases h : p.2 - p.1 > 0
    · rw [if_pos h, max_eq_left (le_of_lt h)]
    · rw [if_neg h, max_eq_right (by linarith [not_lt.mp h])]
  have habs2 : ∀ p : ℚ × ℚ,
      (if p.2 - p.1 > 0 then 0 else |p.2 - p.1|) = max (-(p.2 - p.1)) 0 := by
    intro p
    by_cases h : p.2 - p.1 > 0
    · rw [if_pos h, max_eq_right (by linarith)]
    · rw [if_neg h, abs_of_nonpos (not_lt.mp h), max_eq_left (by linarith [not_lt.mp h])]
  refine ⟨?_, ?_, ?_, ?_⟩
  · intro closes period _
    unfold _calculate_rsi
    split
    · next h => simpa using h
    · next h =>
      constructor
      · intro hc
        dsimp only at hc
        split at hc <;> simp_all
      · intro hc
        exact absurd hc h
  · intro closes period _
    unfold _calculate_rsi rsiSpec
    have hg : rsiGains closes =
        ((closes.zip closes.tail).map (fun p => p.2 - p.1)).map (fun d => max d 0) := by
      rw [List.map_map, rsiGains]
      exact List.map_congr_left (fun p _ => habs p)
    have hl : rsiLosses closes =
        ((closes.zip closes.tail).map (fun p => p.2 - p.1)).map (fun d => max (-d) 0) := by
      rw [List.map_map, rsiLosses]
      exact List.map_congr_left (fun p _ => habs2 p)
    rw [hg, hl]
  · intro closes period r _ h
    unfold _calculate_rsi at h
    split at h
    · exact absurd h (by simp)
    · dsimp only at h
      have hga : (0 : ℚ) ≤
          ((rsiGains closes).drop ((rsiGains closes).length - period)).sum / (period : ℚ) :=
        div_nonneg
          (List.sum_nonneg fun x hx =>
            rsiGains_nonneg closes x (List.drop_subset _ _ hx))
          (by positivity)
      have hla : (0 : ℚ) ≤
          ((rsiLosses closes).drop ((rsiLosses closes).length - period)).sum / (period : ℚ) :=
        div_nonneg
          (List.sum_nonneg fun x hx =>
            rsiLosses_nonneg closes x (List.drop_subset _ _ hx))
          (by positivity)
      split at h
      · cases h
        norm_num
      · next hz =>
        cases h
        exact rsi_bounds_aux _ _ hga hla hz
  · intro closes hlen hchain
    have hzero : ∀ x ∈ rsiLosses closes, x = 0 := by
      intro x hx
      simp only [rsiLosses, List.mem_map] at hx
      obtain ⟨p, hp, rfl⟩ := hx
      rw [if_pos (sub_pos.mpr (chain_zip_lt closes hchain p hp))]
    unfold _calculate_rsi
    rw [if_neg (by omega)]
    rw [if_pos]
    rw [List.sum_eq_zero fun x hx => hzero x (List.drop_subset _ _ hx)]
    norm_num

/-- Witness for `c5_rsi_spec`: the strictly increasing seven-close series
1..7 yields RSI6 = 100, and three closes are too few for RSI6. -/
theorem c5_rsi_witness :
    _calculate_rsi [1, 2, 3, 4, 5, 6, 7] 6 = some 100 ∧
    (_calculate_rsi [1, 2, 3] 6 = none ↔ ([1, 2, 3] : List ℚ).length < 7) :=
  ⟨c5_rsi_spec.2.2.2 [1, 2, 3, 4, 5, 6, 7] (by decide)
    (by norm_num [List.chain'_cons, List.chain'_singleton]),
   c5_rsi_spec.1 [1, 2, 3] 6 (by decide)⟩

/-- C8: `ma(period)` is present iff enough bars exist and then equals the
simple mean of the last `period` closes (the four snapshot MA fields are
exactly `_calculate_ma` at 5/10/20/60); 4 bars give no ma5 while 5 bars
of close 10 give ma5 = 10; `support_m`/`resistance_m` are present iff at
least 20 bars exist and then equal the minimum low / maximum high over the
last 20 bars (with `listMin`/`listMax` the exact min/max of a nonempty
list). -/
theorem c8_ma_support_resistance :
    (∀ klines : List KlineData,
      (get_technical_indicators_pure klines).ma5 =
        _calculate_ma (klines.map KlineData.close) 5 ∧
      (get_technical_indicators_pure klines).ma10 =
        _calculate_ma (klines.map KlineData.close) 10 ∧
      (get_technical_indicators_pure klines).ma20 =
        _calculate_ma (klines.map KlineData.close) 20 ∧
      (get_technical_indicators_pure klines).ma60 =
        _calculate_ma (klines.map KlineData.close) 60) ∧
    (∀ (closes : List ℚ) (period : ℕ),
      (_calculate_ma closes period = none ↔ closes.length < period) ∧
      (period ≤ closes.length →
        _calculate_ma closes period =
          some ((closes.drop (closes.length - period)).sum / (period : ℚ)))) ∧
    (_calculate_ma (List.replicate 4 (10 : ℚ)) 5 = none ∧
      _calculate_ma (List.replicate 5 (10 : ℚ)) 5 = some 10) ∧
    (∀ klines : List KlineData,
      ((get_technical_indicators_pure klines).support_m = none ↔
        klines.length < 20) ∧
      ((get_technical_indicators_pure klines).resistance_m = none ↔
        klines.length < 20) ∧
      (20 ≤ klines.length →
        (get_technical_indicators_pure klines).support_m =
          some (listMin ((klines.drop (klines.length - 20)).map KlineData.low)) ∧
        (get_technical_indicators_pure klines).resistance_m =
          some (listMax ((klines.drop (klines.length - 20)).map KlineData.high)))) ∧
    (∀ l : List ℚ, l ≠ [] →
      (listMin l ∈ l ∧ ∀ x ∈ l, listMin l ≤ x) ∧
      (listMax l ∈ l ∧ ∀ x ∈ l, x ≤ listMax l)) := by
  refine ⟨?_, ?_, ?_, ?_, ?_⟩
  · intro klines
    exact ⟨gti_ma5 klines, gti_ma10 klines, gti_ma20 klines, gti_ma60 klines⟩
  · intro closes period
    constructor
    · unfold _calculate_ma
      split
      · next h => simpa using h
      · next h => simp [h]
    · intro hle
      unfold _calculate_ma
      rw [if_neg (by omega)]
  · constructor
    · with_unfolding_all decide
    · with_unfolding_all decide
  · intro klines
    refine ⟨?_, ?_, ?_⟩
    · rw [gti_support_m]
      by_cases h : klines.length ≥ 20 <;> simp [h] <;> omega
    · rw [gti_resistance_m]
      by_cases h : klines.length ≥ 20 <;> simp [h] <;> omega
    · intro hle
      rw [gti_support_m, gti_resistance_m]
      constructor
      · rw [if_pos hle]
      · rw [if_pos hle]
  · intro l hl
    exact ⟨⟨listMin_mem l hl, listMin_le l⟩, ⟨listMax_mem l hl, fun x hx => le_listMax l x hx⟩⟩

/-- Witness for `c8_ma_support_resistance`: the mean formula at five
closes of 10, and the 20-bar support/resistance equations on the concrete
30-bar series. -/
theorem c8_ma_support_resistance_witness :
    _calculate_ma (List.replicate 5 (10 : ℚ)) 5 =
      some (((List.replicate 5 (10 : ℚ)).drop
        ((List.replicate 5 (10 : ℚ)).length - 5)).sum / (5 : ℚ)) ∧
    (get_technical_indicators_pure c1Bars).support_m =
      some (listMin ((c1Bars.drop (c1Bars.length - 20)).map KlineData.low)) ∧
    (get_technical_indicators_pure c1Bars).resistance_m =
      some (listMax ((c1Bars.drop (c1Bars.length - 20)).map KlineData.high)) :=
  ⟨(c8_ma_support_resistance.2.1 (List.replicate 5 (10 : ℚ)) 5).2 (by decide),
   ((c8_ma_support_resistance.2.2.2.1 c1Bars).2.2 (by decide)).1,
   ((c8_ma_support_resistance.2.2.2.1 c1Bars).2.2 (by decide)).2⟩

/-- Bounds for one RSV value: if the bar whose close is used lies in the
window and satisfies the bar invariant `low ≤ close ≤ high`, the RSV is in
`[0, 100]`. -/
theorem rsv_window_bounds (w : List KlineData) (b : KlineData) (hbw : b ∈ w)
    (hvb : b.low ≤ b.close ∧ b.close ≤ b.high) :
    0 ≤ (if listMax (w.map KlineData.high) = listMin (w.map KlineData.low) then (50 : ℚ)
         else (b.close - listMin (w.map KlineData.low)) /
              (listMax (w.map KlineData.high) - listMin (w.map KlineData.low)) * 100) ∧
    (if listMax (w.map KlineData.high) = listMin (w.map KlineData.low) then (50 : ℚ)
     else (b.close - listMin (w.map KlineData.low)) /
          (listMax (w.map KlineData.high) - listMin (w.map KlineData.low)) * 100) ≤ 100 := by
  have hhigh : b.close ≤ listMax (w.map KlineData.high) :=
    le_trans hvb.2 (le_listMax _ _ (List.mem_map_of_mem _ hbw))
  have hlow : listMin (w.map KlineData.low) ≤ b.close :=
    le_trans (listMin_le _ _ (List.mem_map_of_mem _ hbw)) hvb.1
  by_cases hc : listMax (w.map KlineData.high) = listMin (w.map KlineData.low)
  · rw [if_pos hc]
    norm_num
  · rw [if_neg hc]
    have hlt : listMin (w.map KlineData.low) < listMax (w.map KlineData.high) :=
      lt_of_le_of_ne (le_trans hlow hhigh) (Ne.symm hc)
    have hq1 : (b.close - listMin (w.map KlineData.low)) /
        (listMax (w.map KlineData.high) - listMin (w.map KlineData.low)) ≤ 1 :=
      (div_le_one (sub_pos.mpr hlt)).mpr (by linarith)
    have hq0 : 0 ≤ (b.close - listMin (w.map KlineData.low)) /
        (listMax (w.map KlineData.high) - listMin (w.map KlineData.low)) :=
      div_nonneg (by linarith) (by linarith)
    constructor
    · nlinarith
    · nlinarith

/-- Bounds for `kdjRsvAt` at a legal loop index over bars satisfying the
invariant `low ≤ close ≤ high`. -/
theorem kdjRsvAt_bounds (klines : List KlineData) (n i : ℕ) (hn : 1 ≤ n)
    (hi1 : n - 1 ≤ i) (hi2 : i < klines.length)
    (hvalid : ∀ b ∈ klines, b.low ≤ b.close ∧ b.close ≤ b.high) :
    0 ≤ kdjRsvAt klines n i ∧ kdjRsvAt klines n i ≤ 100 := by
  have hgd : klines.getD i default = klines[i] := List.getD_eq_getElem klines default hi2
  have hbw : klines.getD i default ∈ (klines.drop (i + 1 - n)).take n := by
    rw [hgd]
    have hq : ((klines.drop (i + 1 - n)).take n)[n - 1]? = klines[i]? := by
      rw [List.getElem?_take, if_pos (by omega), List.getElem?_drop]
      congr 1
      omega
    have : ((klines.drop (i + 1 - n)).take n)[n - 1]? = some klines[i] := by
      rw [hq, List.getElem?_eq_getElem hi2]
    exact List.getElem?_mem this
  have hvb := hvalid (klines.getD i default) (by rw [hgd]; exact List.getElem_mem hi2)
  exact rsv_window_bounds ((klines.drop (i + 1 - n)).take n) (klines.getD i default) hbw hvb

/-- Every RSV in the list computed by `_calculate_kdj` with the default
window 9 lies in `[0, 100]` for bars satisfying `low ≤ close ≤ high`. -/
theorem kdjRsvList_bounds (klines : List KlineData)
    (hvalid : ∀ b ∈ klines, b.low ≤ b.close ∧ b.close ≤ b.high) :
    ∀ r ∈ kdjRsvList klines 9, 0 ≤ r ∧ r ≤ 100 := by
  intro r hr
  simp only [kdjRsvList, List.mem_map, List.mem_range] at hr
  obtain ⟨t, ht, rfl⟩ := hr
  exact kdjRsvAt_bounds klines 9 (t + (9 - 1)) (by omega) (by omega) (by omega) hvalid

/-- The smoothed K and D values stay in `[0, 100]` when all remaining RSVs
and the previous K/D do. -/
theorem kdjScan_bounds :
    ∀ (rsvs : List ℚ) (prev : ℚ × ℚ),
      (0 ≤ prev.1 ∧ prev.1 ≤ 100) → (0 ≤ prev.2 ∧ prev.2 ≤ 100) →
      (∀ r ∈ rsvs, 0 ≤ r ∧ r ≤ 100) →
      ∀ t ∈ kdjScan prev rsvs, (0 ≤ t.1 ∧ t.1 ≤ 100) ∧ (0 ≤ t.2.1 ∧ t.2.1 ≤ 100)
  | [], _, _, _, _, t, ht => absurd ht (List.not_mem_nil t)
  | r :: rest, prev, hk, hd, hrsv, t, ht => by
    have hr := hrsv r (List.mem_cons_self r rest)
    have hknew : 0 ≤ (2 / 3) * prev.1 + (1 / 3) * r ∧
        (2 / 3) * prev.1 + (1 / 3) * r ≤ 100 := by
      constructor <;> nlinarith [hk.1, hk.2, hr.1, hr.2]
    have hdnew : 0 ≤ (2 / 3) * prev.2 + (1 / 3) * ((2 / 3) * prev.1 + (1 / 3) * r) ∧
        (2 / 3) * prev.2 + (1 / 3) * ((2 / 3) * prev.1 + (1 / 3) * r) ≤ 100 := by
      constructor <;> nlinarith [hd.1, hd.2, hknew.1, hknew.2]
    rcases List.mem_cons.mp ht with rfl | hmem
    · exact ⟨hknew, hdnew⟩
    · exact kdjScan_bounds rest _ hknew hdnew
        (fun x hx => hrsv x (List.mem_cons_of_mem r hx)) t hmem

/-- The full K/D sequence (seed included) stays in `[0, 100]` when every
RSV does. -/
theorem kdjSeq_bounds (rsvs : List ℚ) (hrsv : ∀ r ∈ rsvs, 0 ≤ r ∧ r ≤ 100) :
    ∀ t ∈ kdjSeq rsvs, (0 ≤ t.1 ∧ t.1 ≤ 100) ∧ (0 ≤ t.2.1 ∧ t.2.1 ≤ 100) := by
  intro t ht
  match rsvs, ht with
  | r :: rest, ht =>
    rcases List.mem_cons.mp ht with rfl | hmem
    · norm_num
    · exact kdjScan_bounds rest (50, 50) (by norm_num) (by norm_num)
        (fun x hx => hrsv x (List.mem_cons_of_mem r hx)) t hmem

/-- The KDJ series on the eleven-bar rising series: every RSV is 100, so
K and D chase 100 from the 50/50 seed while J overshoots past 100. -/
theorem c9_kdj_eval :
    _calculate_kdj c9Bars 9 3 3 =
      some ([50, 200/3, 700/9], [50, 500/9, 1700/27], [50, 800/9, 2900/27]) := by
  have hl : kdjRsvList c9Bars 9 =
      [kdjRsvAt c9Bars 9 8, kdjRsvAt c9Bars 9 9, kdjRsvAt c9Bars 9 10] := rfl
  have h8 : kdjRsvAt c9Bars 9 8 = 100 := by with_unfolding_all decide
  have h9 : kdjRsvAt c9Bars 9 9 = 100 := by with_unfolding_all decide
  have h10 : kdjRsvAt c9Bars 9 10 = 100 := by with_unfolding_all decide
  have h : kdjRsvList c9Bars 9 = [100, 100, 100] := by rw [hl, h8, h9, h10]
  unfold _calculate_kdj
  rw [if_neg (by decide)]
  dsimp only
  rw [h]
  simp [kdjSeq, kdjScan]
  norm_num

/-- C9: on any bar series satisfying the data-model invariant
`low ≤ close ≤ high` on which KDJ is computable, every K and every D value
lies in `[0, 100]`; the J series is not so bounded — on eleven valid
rising bars the last J exceeds 100. -/
theorem c9_kdj_bounds :
    (∀ (klines : List KlineData) (kv dv jv : List ℚ),
      (∀ b ∈ klines, b.low ≤ b.close ∧ b.close ≤ b.high) →
      _calculate_kdj klines 9 3 3 = some (kv, dv, jv) →
      (∀ k ∈ kv, 0 ≤ k ∧ k ≤ 100) ∧ (∀ d ∈ dv, 0 ≤ d ∧ d ≤ 100)) ∧
    ((∀ b ∈ c9Bars, b.low ≤ b.close ∧ b.close ≤ b.high) ∧
      9 ≤ c9Bars.length ∧ c9J.getLastD 0 > 100) := by
  constructor
  · intro klines kv dv jv hvalid heq
    unfold _calculate_kdj at heq
    split at heq
    · exact absurd heq (by simp)
    · dsimp only at heq
      rw [Option.some_inj, Prod.mk.injEq, Prod.mk.injEq] at heq
      obtain ⟨hk, hd, -⟩ := heq
      have hseq := kdjSeq_bounds (kdjRsvList klines 9) (kdjRsvList_bounds klines hvalid)
      constructor
      · intro k hkmem
        rw [← hk] at hkmem
        simp only [List.mem_map] at hkmem
        obtain ⟨t, ht, rfl⟩ := hkmem
        exact (hseq t ht).1
      · intro d hdmem
        rw [← hd] at hdmem
        simp only [List.mem_map] at hdmem
        obtain ⟨t, ht, rfl⟩ := hdmem
        exact (hseq t ht).2
  · refine ⟨by decide, by decide, ?_⟩
    show (((_calculate_kdj c9Bars 9 3 3).getD ([], [], [])).2.2).getLastD 0 > 100
    rw [c9_kdj_eval]
    norm_num

/-- Witness for `c9_kdj_bounds` at the eleven-bar rising series. -/
theorem c9_kdj_bounds_witness :
    (∀ k ∈ [(50 : ℚ), 200/3, 700/9], 0 ≤ k ∧ k ≤ 100) ∧
    (∀ d ∈ [(50 : ℚ), 500/9, 1700/27], 0 ≤ d ∧ d ≤ 100) :=
  c9_kdj_bounds.1 c9Bars [50, 200/3, 700/9] [50, 500/9, 1700/27] [50, 800/9, 2900/27]
    (by decide) c9_kdj_eval

/-- C7: for at least 20 positive closes, the Bollinger computation yields
`lower ≤ mid ≤ upper` with `mid` the simple mean of the trailing 20
closes, the band offset `2·√(population variance)`, and
`width = (upper - lower) / mid * 100`. -/
theorem c7_bollinger_ordering (closes : List ℝ) (hlen : 20 ≤ closes.length)
    (hpos : ∀ x ∈ closes, 0 < x) :
    ∃ upper mid lower width,
      _calculate_boll closes 20 2 = some (upper, mid, lower, width) ∧
      mid = (closes.drop (closes.length - 20)).sum / ((20 : ℕ) : ℝ) ∧
      upper = mid + ((2 : ℕ) : ℝ) *
        Real.sqrt (((closes.drop (closes.length - 20)).map
          (fun x => (x - mid) ^ 2)).sum / ((20 : ℕ) : ℝ)) ∧
      lower = mid - ((2 : ℕ) : ℝ) *
        Real.sqrt (((closes.drop (closes.length - 20)).map
          (fun x => (x - mid) ^ 2)).sum / ((20 : ℕ) : ℝ)) ∧
      lower ≤ mid ∧ mid ≤ upper ∧ 0 < mid ∧
      width = (upper - lower) / mid * 100 := by
  have h20 : ¬ closes.length < 20 := by omega
  have hrec_len : (closes.drop (closes.length - 20)).length = 20 := by
    rw [List.length_drop]
    omega
  have hrec_ne : closes.drop (closes.length - 20) ≠ [] := by
    intro hcon
    rw [hcon] at hrec_len
    simp at hrec_len
  have hsum : 0 < (closes.drop (closes.length - 20)).sum :=
    List.sum_pos _ (fun x hx => hpos x (List.drop_subset _ closes hx)) hrec_ne
  have hm : 0 < (closes.drop (closes.length - 20)).sum / ((20 : ℕ) : ℝ) :=
    div_pos hsum (by norm_num)
  have h2std : 0 ≤ ((2 : ℕ) : ℝ) *
      Real.sqrt (((closes.drop (closes.length - 20)).map
        (fun x => (x - (closes.drop (closes.length - 20)).sum / ((20 : ℕ) : ℝ)) ^ 2)).sum /
        ((20 : ℕ) : ℝ)) :=
    mul_nonneg (Nat.cast_nonneg 2) (Real.sqrt_nonneg _)
  unfold _calculate_boll
  rw [if_neg h20]
  dsimp only
  rw [if_pos hm]
  exact ⟨_, _, _, _, rfl, rfl, rfl, rfl, by linarith, by linarith, hm, rfl⟩

/-- Witness for `c7_bollinger_ordering` at 20 constant closes of 10. -/
theorem c7_bollinger_ordering_witness :
    ∃ upper mid lower width,
      _calculate_boll (List.replicate 20 (10 : ℝ)) 20 2 =
        some (upper, mid, lower, width) ∧
      lower ≤ mid ∧ mid ≤ upper ∧ width = (upper - lower) / mid * 100 := by
  obtain ⟨u, m, l, w, h1, -, -, -, h5, h6, -, h8⟩ :=
    c7_bollinger_ordering (List.replicate 20 (10 : ℝ)) (by simp)
      (fun x hx => by rw [List.eq_of_mem_replicate hx]; norm_num)
  exact ⟨u, m, l, w, h1, h5, h6, h8⟩

/-- `getLastD` of a nonempty constant list is its element. -/
theorem getLastD_replicate : ∀ (n : ℕ) (v d : ℚ), n ≠ 0 →
    (List.replicate n v).getLastD d = v
  | 0, _, _, h => absurd rfl h
  | n + 1, v, d, _ => by
    rw [List.replicate_succ, List.getLastD_cons]
    cases n with
    | zero => rfl
    | succ m => exact getLastD_replicate (m + 1) v v (by omega)

/-- The volume block on a constant positive volume series of length ≥ 5:
the ratio is exactly 1 and the trend label is "平量" (flat). -/
theorem volume_fields_replicate (n : ℕ) (v : ℚ) (h5 : 5 ≤ n) (hv : 0 < v) :
    volume_fields (List.replicate n v) = (some 1, some "平量") := by
  have hne : List.replicate n v ≠ [] := by
    simp only [ne_eq, List.replicate_eq_nil_iff]
    omega
  have hma : _calculate_ma (List.replicate n v) 5 = some v := by
    unfold _calculate_ma
    rw [List.length_replicate, if_neg (by omega), List.drop_replicate]
    have h55 : n - (n - 5) = 5 := by omega
    rw [h55, List.sum_replicate, nsmul_eq_mul]
    norm_num
  unfold volume_fields
  rw [if_neg hne, hma]
  dsimp only
  rw [if_pos ⟨hne, ne_of_gt hv, hv⟩]
  rw [getLastD_replicate n v 0 (by omega), div_self (ne_of_gt hv)]
  norm_num

/-- C1 counterexample: with only 30 bars, MACD — which needs
`slow + signal = 26 + 9 = 35` bars — is not computable, so the summary's
`macd_cross` is `None` ("无数据"), not "金叉" (golden). -/
theorem c1_macd_not_golden :
    c1Bars.length = 30 ∧
    (get_kline_summary_pure c1Bars).isSome = true ∧
    c1summary.macd_cross = none ∧
    c1summary.macd_status = "无数据" ∧
    c1summary.macd_cross ≠ some "金叉" := by
  refine ⟨by decide, ?_, ?_, ?_, ?_⟩
  · with_unfolding_all decide
  · with_unfolding_all decide
  · with_unfolding_all decide
  · with_unfolding_all decide

/-- C1 (amended): on the 30-bar series rising steadily from 10.00 to
12.00 with volume constant at 1,000,000 and high = close, the summary
reports trend "多头排列" (bullish-aligned), `change_5d = 500/169 > 0`,
volume trend "平量" (flat) and `resistance_s = 12.00`, but `macd_cross`
is `None` because 30 bars are fewer than the `26 + 9` MACD needs. -/
theorem c1_thirty_bar_summary :
    c1Bars.length = 30 ∧
    c1Bars.map KlineData.close =
      (List.range 30).map (fun i => 10 + 2 * (i : ℚ) / 29) ∧
    c1Bars.map KlineData.high = c1Bars.map KlineData.close ∧
    c1Bars.map KlineData.volume = List.replicate 30 1000000 ∧
    c1summary.trend = "多头排列" ∧
    c1summary.macd_cross = none ∧
    c1summary.change_5d = some (500 / 169) ∧ (0 : ℚ) < 500 / 169 ∧
    c1summary.volume_trend = some "平量" ∧
    c1summary.resistance_s = some 12 := by
  refine ⟨by decide, ?_, ?_, ?_, ?_, ?_, ?_, by norm_num, ?_, ?_⟩
  · with_unfolding_all decide
  · decide
  · have h2 : c1Bars.map KlineData.volume = List.replicate 30 qVol := rfl
    have h3 : qVol = 1000000 := by
      apply Rat.ext <;> simp [qVol]
    rw [h2, h3]
  · with_unfolding_all decide
  · with_unfolding_all decide
  · with_unfolding_all decide
  · have h1 : c1summary.volume_trend =
        (get_technical_indicators_pure c1Bars).volume_trend := rfl
    have h2 : c1Bars.map KlineData.volume = List.replicate 30 qVol := by decide
    rw [h1, gti_volume_trend, h2,
        volume_fields_replicate 30 qVol (by norm_num) (by with_unfolding_all decide)]
  · with_unfolding_all decide

/-! ## Association-list and builder-fold lemmas -/

theorem alookup_cons {α β : Type} [DecidableEq α] (k' : α) (v : β)
    (l : List (α × β)) (k : α) :
    alookup ((k', v) :: l) k = if k' = k then some v else alookup l k := by
  unfold alookup
  rw [List.find?_cons]
  by_cases h : k' = k
  · simp [h]
  · simp [h]

theorem alookup_aset_self {α β : Type} [DecidableEq α] (l : List (α × β))
    (k : α) (v : β) : alookup (aset l k v) k = some v := by
  simp [aset, alookup_cons]

theorem alookup_aset_ne {α β : Type} [DecidableEq α] (l : List (α × β))
    (k k' : α) (v : β) (h : k ≠ k') : alookup (aset l k v) k' = alookup l k' := by
  simp [aset, alookup_cons, h]

theorem alookup_asetdefault_ne {α β : Type} [DecidableEq α] (l : List (α × β))
    (k k' : α) (v : β) (h : k ≠ k') :
    alookup (asetdefault l k v) k' = alookup l k' := by
  unfold asetdefault
  cases h' : alookup l k
  · simp [aset, alookup_cons, h]
  · rfl

theorem alookup_asetdefault_self {α β : Type} [DecidableEq α] (l : List (α × β))
    (k : α) (v : β) :
    alookup (asetdefault l k v) k = some ((alookup l k).getD v) := by
  unfold asetdefault
  cases h' : alookup l k
  · simp [h', aset, alookup_cons]
  · simp [h']

/-- After one `techStep` with providers enabled, the `tech_map` entry for
the processed symbol is the provider-loop outcome. -/
theorem techStep_map_self {T : Type} (providers : List String)
    (fetch : String → String → Except String T) (st : TechState T)
    (e : String × MarketCode × String) (hInv : TechInv providers fetch st) :
    alookup (techStep providers false fetch st e).map e.1 =
      some ((tryKlineProviders fetch e.1 providers none).1) := by
  unfold techStep
  cases hc : alookup st.cache (e.2.1, e.1) with
  | some v =>
    simp [hc, alookup_aset_self, hInv.1 (e.2.1, e.1) v hc]
  | none =>
    cases ho : tryKlineProviders fetch e.1 providers none with
    | mk res tag =>
      cases res with
      | ok v => simp [hc, ho, alookup_aset_self]
      | error er => simp [hc, ho, alookup_aset_self]

/-- `techStep` does not disturb the `tech_map` entries of other symbols. -/
theorem techStep_map_other {T : Type} (providers : List String)
    (fetch : String → String → Except String T) (st : TechState T)
    (e : String × MarketCode × String) (sym : String) (hne : e.1 ≠ sym) :
    alookup (techStep providers false fetch st e).map sym = alookup st.map sym := by
  unfold techStep
  cases hc : alookup st.cache (e.2.1, e.1) with
  | some v =>
    simp [hc, alookup_aset_ne _ _ _ _ hne]
  | none =>
    cases ho : tryKlineProviders fetch e.1 providers none with
    | mk res tag =>
      cases res with
      | ok v => simp [hc, ho, alookup_aset_ne _ _ _ _ hne]
      | error er => simp [hc, ho, alookup_aset_ne _ _ _ _ hne]

/-- One `techStep` with providers enabled preserves the cache/map
invariant. -/
theorem techStep_preserves {T : Type} (providers : List String)
    (fetch : String → String → Except String T) (st : TechState T)
    (e : String × MarketCode × String) (hInv : TechInv providers fetch st) :
    TechInv providers fetch (techStep providers false fetch st e) := by
  constructor
  · intro key v hkv
    unfold techStep at hkv
    cases hc : alookup st.cache (e.2.1, e.1) with
    | some w =>
      simp [hc] at hkv
      exact hInv.1 key v hkv
    | none =>
      cases ho : tryKlineProviders fetch e.1 providers none with
      | mk res tag =>
        cases res with
        | ok w =>
          simp [hc, ho] at hkv
          by_cases hk : (e.2.1, e.1) = key
          · subst hk
            rw [alookup_aset_self] at hkv
            cases hkv
            rw [ho]
          · rw [alookup_aset_ne _ _ _ _ hk] at hkv
            exact hInv.1 key v hkv
        | error er =>
          simp [hc, ho] at hkv
          by_cases hk : (e.2.1, e.1) = key
          · subst hk
            rw [alookup_aset_self] at hkv
            cases hkv
            rw [ho]
          · rw [alookup_aset_ne _ _ _ _ hk] at hkv
            exact hInv.1 key v hkv
  · intro sym v hsv
    by_cases hs : e.1 = sym
    · subst hs
      rw [techStep_map_self providers fetch st e hInv] at hsv
      cases hsv
      rfl
    · rw [techStep_map_other providers fetch st e sym hs] at hsv
      exact hInv.2 sym v hsv

/-- Folding `techStep` with providers enabled: the invariant is preserved
and every processed (or already-correct) symbol ends mapped to its
provider-loop outcome. -/
theorem techFold_established {T : Type} (providers : List String)
    (fetch : String → String → Except String T) :
    ∀ (syms : List (String × MarketCode × String)) (st : TechState T)
      (sym : String),
      TechInv providers fetch st →
      ((∃ e ∈ syms, e.1 = sym) ∨
        alookup st.map sym = some ((tryKlineProviders fetch sym providers none).1)) →
      alookup (syms.foldl (techStep providers false fetch) st).map sym =
        some ((tryKlineProviders fetch sym providers none).1)
  | [], st, sym, _, h => by
    rcases h with ⟨e, he, -⟩ | h
    · exact absurd he (List.not_mem_nil e)
    · simpa using h
  | e :: rest, st, sym, hInv, h => by
    rw [List.foldl_cons]
    apply techFold_established providers fetch rest _ sym
      (techStep_preserves providers fetch st e hInv)
    by_cases hs : e.1 = sym
    · right
      rw [← hs]
      rw [techStep_map_self providers fetch st e hInv, hs]
    · rcases h with ⟨f, hf, hf1⟩ | hpre
      · rcases List.mem_cons.mp hf with rfl | hf2
        · exact absurd hf1 hs
        · exact Or.inl ⟨f, hf2, hf1⟩
      · right
        rw [techStep_map_other providers fetch st e sym hs]
        exact hpre

/-- Folding the disabled capital-flow step marks every processed symbol
with the disabled error dict and provenance. -/
theorem flowDisabledFold_established {F : Type} :
    ∀ (syms : List String) (st : FlowState F) (sym : String),
      (sym ∈ syms ∨
        (alookup st.map sym = some (.error "资金流向数据源已禁用") ∧
         alookup st.src (MarketCode.CN, sym) = some "disabled")) →
      alookup (syms.foldl flowDisabledStep st).map sym =
          some ((Except.error "资金流向数据源已禁用" : Except String F)) ∧
      alookup (syms.foldl flowDisabledStep st).src (MarketCode.CN, sym) =
          some "disabled"
  | [], st, sym, h => by
    rcases h with h | h
    · exact absurd h (List.not_mem_nil sym)
    · simpa using h
  | s :: rest, st, sym, h => by
    rw [List.foldl_cons]
    apply flowDisabledFold_established rest (flowDisabledStep st s) sym
    by_cases hs : sym = s
    · subst hs
      right
      exact ⟨alookup_aset_self _ _ _, alookup_aset_self _ _ _⟩
    · rcases h with hmem | hst
      · rcases List.mem_cons.mp hmem with rfl | hmem2
        · exact absurd rfl hs
        · exact Or.inl hmem2
      · right
        constructor
        · rw [show (flowDisabledStep st s).map =
              aset st.map s (.error "资金流向数据源已禁用") from rfl]
          rw [alookup_aset_ne _ _ _ _ (fun he => hs he.symm)]
          exact hst.1
        · rw [show (flowDisabledStep st s).src =
              aset st.src (MarketCode.CN, s) "disabled" from rfl]
          rw [alookup_aset_ne _ _ _ _
            (fun he => hs (congrArg Prod.snd he).symm)]
          exact hst.2

/-- The pack-assembly fold leaves unrelated symbols' lookups unchanged. -/
theorem packsFold_not_mem {Q T F : Type} (cfg : BuildConfig Q T F)
    (tech : TechState T) (flow : FlowState F) :
    ∀ (syms : List (String × MarketCode × String))
      (acc : List (String × Pack Q T F)) (sym : String),
      (∀ e ∈ syms, e.1 ≠ sym) →
      alookup (syms.foldl (fun packs e => aset packs e.1 (packFor cfg tech flow e)) acc)
        sym = alookup acc sym
  | [], _, _, _ => rfl
  | e :: rest, acc, sym, h => by
    rw [List.foldl_cons]
    rw [packsFold_not_mem cfg tech flow rest _ sym
      (fun x hx => h x (List.mem_cons_of_mem e hx))]
    exact alookup_aset_ne _ _ _ _ (h e (List.mem_cons_self _ _))

/-- Every symbol of the batch ends up with a pack assembled from some
entry of the batch bearing that symbol (the last one, by dict
semantics). -/
theorem packsFold_mem {Q T F : Type} (cfg : BuildConfig Q T F)
    (tech : TechState T) (flow : FlowState F) :
    ∀ (syms : List (String × MarketCode × String))
      (acc : List (String × Pack Q T F)) (sym : String),
      (∃ e ∈ syms, e.1 = sym) →
      ∃ e, e ∈ syms ∧ e.1 = sym ∧
        alookup (syms.foldl (fun packs e => aset packs e.1 (packFor cfg tech flow e)) acc)
          sym = some (packFor cfg tech flow e)
  | [], _, _, h => absurd h (by simp)
  | e :: rest, acc, sym, h => by
    rw [List.foldl_cons]
    by_cases hrest : ∃ f ∈ rest, f.1 = sym
    · obtain ⟨f, hf, hf1, hlook⟩ := packsFold_mem cfg tech flow rest _ sym hrest
      exact ⟨f, List.mem_cons_of_mem e hf, hf1, hlook⟩
    · have he1 : e.1 = sym := by
        rcases h with ⟨f, hf, hf1⟩
        rcases List.mem_cons.mp hf with rfl | hf2
        · exact hf1
        · exact absurd ⟨f, hf2, hf1⟩ hrest
      refine ⟨e, List.mem_cons_self e rest, he1, ?_⟩
      rw [packsFold_not_mem cfg tech flow rest _ sym
        (fun f hf hfeq => hrest ⟨f, hf, hfeq⟩)]
      rw [← he1, alookup_aset_self]

/-- The kline facet appears in the assembled `missing` list exactly when
the technical facet was requested and its stored value fails the Python
truthiness test (absent, or an error dict with a nonempty message). -/
theorem kline_mem_missingFor {Q T F : Type} (cfg : BuildConfig Q T F)
    (techMap : List (String × Except String T))
    (flowMap : List (String × Except String F)) (sym : String)
    (market : MarketCode) :
    "kline" ∈ missingFor cfg techMap flowMap sym market ↔
      (cfg.includeTechnical = true ∧ facetMissing (alookup techMap sym) = true) := by
  unfold missingFor
  split_ifs <;> simp_all

/-- The capital-flow facet appears in the assembled `missing` list exactly
when it was requested for a CN symbol and its stored value fails the
truthiness test. -/
theorem capital_flow_mem_missingFor {Q T F : Type} (cfg : BuildConfig Q T F)
    (techMap : List (String × Except String T))
    (flowMap : List (String × Except String F)) (sym : String)
    (market : MarketCode) :
    "capital_flow" ∈ missingFor cfg techMap flowMap sym market ↔
      (cfg.includeCapitalFlow = true ∧ market = MarketCode.CN ∧
        facetMissing (alookup flowMap sym) = true) := by
  unfold missingFor
  split_ifs <;> simp_all

/-- C4 counterexample: in the disabled-capital-flow scenario the returned
pack's `capital_flow` is the error dict
`{"error": "资金流向数据源已禁用"}` — present and nonempty, not the
absent/empty facet the claim describes (provenance and `missing` behave as
claimed). -/
theorem c4_flow_error_dict_not_absent :
    ((alookup c4packs "600000").getD dummyPack).capital_flow =
        some (.error "资金流向数据源已禁用") ∧
    ((alookup c4packs "600000").getD dummyPack).capital_flow ≠ none ∧
    ((alookup c4packs "600000").getD dummyPack).sources.capital_flow = "disabled" ∧
    (alookup c4packs "600000").isSome = true := by
  refine ⟨?_, ?_, ?_, ?_⟩
  · decide
  · decide
  · decide
  · decide

/-- C4 (amended): when the capital-flow facet is requested but every
configured provider is disabled, each CN symbol's pack carries the
disabled error dict `{"error": "资金流向数据源已禁用"}` as its
`capital_flow` facet (not an absent/empty one), records "capital_flow" in
`missing` and "disabled" in `sources`, and the build consults no
capital-flow fetch oracle at all. -/
theorem c4_disabled_flow {Q T F : Type} (cfg : BuildConfig Q T F)
    (symbols : List (String × MarketCode × String))
    (hicf : cfg.includeCapitalFlow = true) (hdis : cfg.flowDisabled = true)
    (hCN : ∀ e ∈ symbols, e.2.1 = MarketCode.CN) :
    (∀ e ∈ symbols, ∃ p : Pack Q T F,
      alookup (build_for_symbols cfg symbols) e.1 = some p ∧
      p.capital_flow = some (.error "资金流向数据源已禁用") ∧
      p.sources.capital_flow = "disabled" ∧
      "capital_flow" ∈ p.missing) ∧
    (∀ f g : String → String → Except String F,
      build_for_symbols { cfg with flowFetch := f } symbols =
        build_for_symbols { cfg with flowFetch := g } symbols) := by
  constructor
  · intro e he
    have hcn_e := hCN e he
    have hcnmem : e.1 ∈ (symbols.filter
        (fun x => decide (x.2.1 = MarketCode.CN))).map (fun x => x.1) :=
      List.mem_map_of_mem _ (List.mem_filter.mpr ⟨he, by simp [hcn_e]⟩)
    have hcnne : (symbols.filter
        (fun x => decide (x.2.1 = MarketCode.CN))).map (fun x => x.1) ≠ [] :=
      List.ne_nil_of_mem hcnmem
    have hflow := flowDisabledFold_established (F := F)
      ((symbols.filter (fun x => decide (x.2.1 = MarketCode.CN))).map (fun x => x.1))
      ⟨[], [], []⟩ e.1 (Or.inl hcnmem)
    have hfloweq : flowSection cfg.includeCapitalFlow cfg.flowProviders
        cfg.flowDisabled cfg.flowFetch symbols ⟨[], [], []⟩ =
        ((symbols.filter (fun x => decide (x.2.1 = MarketCode.CN))).map
          (fun x => x.1)).foldl flowDisabledStep ⟨[], [], []⟩ := by
      unfold flowSection
      rw [hicf, hdis]
      simp [hcnne]
    have hfloweq2 : flowSection true cfg.flowProviders
        cfg.flowDisabled cfg.flowFetch symbols ⟨[], [], []⟩ =
        ((symbols.filter (fun x => decide (x.2.1 = MarketCode.CN))).map
          (fun x => x.1)).foldl flowDisabledStep ⟨[], [], []⟩ := by
      rw [← hicf]
      exact hfloweq
    obtain ⟨f, hf, hf1, hlook⟩ := packsFold_mem cfg
      (techSection cfg.includeTechnical cfg.klineProviders cfg.klineDisabled
        cfg.klineFetch symbols ⟨[], [], []⟩)
      (flowSection cfg.includeCapitalFlow cfg.flowProviders cfg.flowDisabled
        cfg.flowFetch symbols ⟨[], [], []⟩)
      symbols [] e.1 ⟨e, he, rfl⟩
    refine ⟨_, hlook, ?_, ?_, ?_⟩
    · unfold packFor
      dsimp only
      rw [if_pos (⟨hicf, hCN f hf⟩ :
        cfg.includeCapitalFlow = true ∧ f.2.1 = MarketCode.CN)]
      rw [hicf, hfloweq2, hf1]
      exact hflow.1
    · unfold packFor
      dsimp only
      rw [if_pos (⟨hicf, hCN f hf⟩ :
        cfg.includeCapitalFlow = true ∧ f.2.1 = MarketCode.CN)]
      rw [hicf, hfloweq2, hf1, hflow.2]
      rfl
    · unfold packFor
      dsimp only
      rw [capital_flow_mem_missingFor]
      refine ⟨hicf, hCN f hf, ?_⟩
      rw [hf1, hicf, hfloweq2, hflow.1]
      simp [facetMissing]
  · intro f g
    rcases cfg with ⟨kp, kd, fp, fd, kf, ff, qm, qs, it, inews, nn, ie, en, es, icf⟩
    simp only at hicf hdis
    subst hicf
    subst hdis
    simp [build_for_symbols, flowSection, techSection, packFor, missingFor]

/-- Witness for `c4_disabled_flow` at the concrete one-symbol CN batch. -/
theorem c4_disabled_flow_witness :
    ∃ p : Pack Unit Unit Unit,
      alookup (build_for_symbols c4cfg c4symbols) "600000" = some p ∧
      p.capital_flow = some (.error "资金流向数据源已禁用") ∧
      p.sources.capital_flow = "disabled" ∧
      "capital_flow" ∈ p.missing :=
  (c4_disabled_flow c4cfg c4symbols rfl rfl (by decide)).1
    ("600000", MarketCode.CN, "s") (by decide)

/-- C6 counterexample: when the raised exception's message is the empty
string, pack A still carries the error dict `{"error": ""}` but the
truthiness test skips it, so "kline" does NOT appear in A's `missing`;
pack B is populated normally. -/
theorem c6_empty_message_missing :
    ((alookup c6packs "AAA").getD dummyPack).technical = some (.error "") ∧
    "kline" ∉ ((alookup c6packs "AAA").getD dummyPack).missing ∧
    ((alookup c6packs "BBB").getD dummyPack).technical = some (.ok ()) ∧
    "kline" ∉ ((alookup c6packs "BBB").getD dummyPack).missing := by
  refine ⟨?_, ?_, ?_, ?_⟩
  · decide
  · decide
  · decide
  · decide

/-- C6 (amended): within one build over a batch containing A and B, if the
kline provider raises for A (message `msg`) and succeeds for B, then A's
pack stores the error dict `{"error": msg}` as its technical facet — with
"kline" recorded in A's `missing` exactly when `msg` is nonempty — while
B's pack carries the fetched summary and no "kline" in `missing`; the
whole batch is returned (the embedding is a total function: the builder
catches the exception rather than raising). -/
theorem c6_fanout_isolation {Q T F : Type} (cfg : BuildConfig Q T F)
    (symbols : List (String × MarketCode × String))
    (A B : String × MarketCode × String) (hA : A ∈ symbols) (hB : B ∈ symbols)
    (hprov : cfg.klineProviders = ["tencent"]) (hdis : cfg.klineDisabled = false)
    (htech : cfg.includeTechnical = true)
    (msg : String) (s : T)
    (hfA : cfg.klineFetch "tencent" A.1 = .error msg)
    (hfB : cfg.klineFetch "tencent" B.1 = .ok s) :
    (∃ pA : Pack Q T F,
      alookup (build_for_symbols cfg symbols) A.1 = some pA ∧
      pA.technical = some (.error msg) ∧
      ("kline" ∈ pA.missing ↔ msg ≠ "")) ∧
    (∃ pB : Pack Q T F,
      alookup (build_for_symbols cfg symbols) B.1 = some pB ∧
      pB.technical = some (.ok s) ∧
      "kline" ∉ pB.missing) := by
  have inv0 : TechInv cfg.klineProviders cfg.klineFetch (⟨[], [], []⟩ : TechState T) :=
    ⟨fun _ v h => Option.noConfusion h, fun _ v h => Option.noConfusion h⟩
  have houtA : tryKlineProviders cfg.klineFetch A.1 ["tencent"] none =
      (.error msg, "unavailable") := by
    simp [tryKlineProviders, hfA]
  have houtB : tryKlineProviders cfg.klineFetch B.1 ["tencent"] none =
      (.ok s, "tencent") := by
    simp [tryKlineProviders, hfB]
  have htecheq : techSection true cfg.klineProviders
      cfg.klineDisabled cfg.klineFetch symbols ⟨[], [], []⟩ =
      symbols.foldl (techStep cfg.klineProviders false cfg.klineFetch) ⟨[], [], []⟩ := by
    unfold techSection
    rw [hdis]
    simp
  have hmapA : alookup (symbols.foldl
      (techStep cfg.klineProviders false cfg.klineFetch) ⟨[], [], []⟩).map A.1 =
      some ((Except.error msg : Except String T)) := by
    rw [techFold_established cfg.klineProviders cfg.klineFetch symbols ⟨[], [], []⟩
      A.1 inv0 (Or.inl ⟨A, hA, rfl⟩)]
    rw [hprov, houtA]
  have hmapB : alookup (symbols.foldl
      (techStep cfg.klineProviders false cfg.klineFetch) ⟨[], [], []⟩).map B.1 =
      some ((Except.ok s : Except String T)) := by
    rw [techFold_established cfg.klineProviders cfg.klineFetch symbols ⟨[], [], []⟩
      B.1 inv0 (Or.inl ⟨B, hB, rfl⟩)]
    rw [hprov, houtB]
  constructor
  · obtain ⟨f, hf, hf1, hlook⟩ := packsFold_mem cfg
      (techSection cfg.includeTechnical cfg.klineProviders cfg.klineDisabled
        cfg.klineFetch symbols ⟨[], [], []⟩)
      (flowSection cfg.includeCapitalFlow cfg.flowProviders cfg.flowDisabled
        cfg.flowFetch symbols ⟨[], [], []⟩)
      symbols [] A.1 ⟨A, hA, rfl⟩
    refine ⟨_, hlook, ?_, ?_⟩
    · unfold packFor
      dsimp only
      rw [if_pos htech, htech, htecheq, hf1]
      exact hmapA
    · unfold packFor
      dsimp only
      rw [kline_mem_missingFor]
      rw [hf1, htech, htecheq, hmapA]
      simp [facetMissing]
  · obtain ⟨f, hf, hf1, hlook⟩ := packsFold_mem cfg
      (techSection cfg.includeTechnical cfg.klineProviders cfg.klineDisabled
        cfg.klineFetch symbols ⟨[], [], []⟩)
      (flowSection cfg.includeCapitalFlow cfg.flowProviders cfg.flowDisabled
        cfg.flowFetch symbols ⟨[], [], []⟩)
      symbols [] B.1 ⟨B, hB, rfl⟩
    refine ⟨_, hlook, ?_, ?_⟩
    · unfold packFor
      dsimp only
      rw [if_pos htech, htech, htecheq, hf1]
      exact hmapB
    · unfold packFor
      dsimp only
      rw [kline_mem_missingFor]
      rw [hf1, htech, htecheq, hmapB]
      simp [facetMissing]

/-- Witness for `c6_fanout_isolation`: concrete two-symbol batch with a
"boom" failure for "AAA" and success for "BBB". -/
theorem c6_fanout_isolation_witness :
    (∃ pA : Pack Unit Unit Unit,
      alookup (build_for_symbols c6cfg2 c6symbols) "AAA" = some pA ∧
      pA.technical = some (.error "boom") ∧
      ("kline" ∈ pA.missing ↔ "boom" ≠ "")) ∧
    (∃ pB : Pack Unit Unit Unit,
      alookup (build_for_symbols c6cfg2 c6symbols) "BBB" = some pB ∧
      pB.technical = some (.ok ()) ∧
      "kline" ∉ pB.missing) :=
  c6_fanout_isolation c6cfg2 c6symbols ("AAA", MarketCode.CN, "a")
    ("BBB", MarketCode.CN, "b") (by decide) (by decide) rfl rfl rfl
    "boom" () rfl rfl

end PanWatch
